import Mathlib

/-!
# Verification of the iot-uplink-gen simulation engine

Shallow embedding of the rule-driven IoT device simulator
(`simulator/rule_types.go`, `simulator/event_simulator.go`,
`simulator/service_simulator.go`, `simulator/simulated_device.go`,
`simulator/device_factory.go`, `manager/managed_device.go`,
`manager/device_manager.go`, `tsl/tsl_types.go`).

Modelling conventions:
* Go `float64` arithmetic is modelled over `ℚ` (and over `ℝ` where the code
  uses `math.Sin`); floating-point rounding noise is outside the model.
* A `json.Number` literal, and likewise a formatted numeric output string,
  is modelled as a `NumLit`: an integer mantissa together with the count of
  digits after the decimal point.  `countDecimalPlaces` of the literal's
  text is then the `decimals` field; the parsed value is `mantissa/10^d`.
  Exponent-form literals (`1e5`), which the repository's configs do not
  use, are outside this representation.
* `rand.Float64()` is modelled as an arbitrary rational argument `r` with
  `0 ≤ r < 1`; `rand.Intn n` as an arbitrary natural argument reduced mod `n`.
* Wall-clock time (`time.Now`) is an explicit integer argument
  (nanoseconds for the wave generator, seconds for the event gate).
* Mutable maps held by the Go simulator objects are passed explicitly as
  functions `String → Option _`.
-/

namespace IotUplinkGen

/-- A decimal numeric literal / formatted numeric string: mantissa and the
number of digits after the decimal point.  `⟨56, 2⟩` is the text `0.56`;
`⟨1, 0⟩` is the text `1`. -/
structure NumLit where
  mantissa : ℤ
  decimals : ℕ
  deriving Repr, DecidableEq

/-- The rational value denoted by a decimal literal. -/
def NumLit.toRat (n : NumLit) : ℚ := (n.mantissa : ℚ) / (10 : ℚ) ^ n.decimals

/-- Value of an optional `json.Number` field: Go's
`config.X.Float64()` with the error ignored yields `0` for the empty
literal. -/
def numOr0 : Option NumLit → ℚ
  | none => 0
  | some n => n.toRat

/-- `countDecimalPlaces` (`rule_types.go:449`) applied to an optional
`json.Number` field's text: the empty string has no `.` hence 0 decimals;
otherwise the literal's digit count after the point. -/
def decOr0 : Option NumLit → ℕ
  | none => 0
  | some n => n.decimals

/-- Go's `math.Round`: round half away from zero. -/
def goRound {α : Type} [LinearOrderedField α] [FloorRing α] (x : α) : ℤ :=
  if 0 ≤ x then ⌊x + 1 / 2⌋ else -⌊-x + 1 / 2⌋

/-- Go's float-to-integer conversion `int64(x)`: truncation toward zero. -/
def goTrunc {α : Type} [LinearOrderedField α] [FloorRing α] (x : α) : ℤ :=
  if 0 ≤ x then ⌊x⌋ else ⌈x⌉

/-- `PropertySimConfig` (`rule_types.go:21`): per-property generation
configuration.  Optional `json.Number` fields are `Option NumLit` (`none`
models the empty literal `""`). -/
structure PropertySimConfig where
  method : String
  min : Option NumLit := none
  max : Option NumLit := none
  step : Option NumLit := none
  start : Option NumLit := none
  value : Option NumLit := none
  enumValues : List String := []
  switchProbability : ℚ := 0
  amplitude : Option NumLit := none
  wavePeriod : ℤ := 0
  deriving Repr

/-- `simulateRandomRange` (`rule_types.go:317`): draw
`min + r*(max-min)` with `r = rand.Float64() ∈ [0,1)`, then round to
`d = max(decimals(min), decimals(max))` places; `d = 0` formats via
`int64(math.Round v)`, `d > 0` via `math.Round(v*10^d)/10^d` printed with
`d` decimals.  Both branches yield the formatted number `⟨round(v*10^d), d⟩`. -/
def simulateRandomRange (config : PropertySimConfig) (r : ℚ) : NumLit :=
  let minF := numOr0 config.min
  let maxF := numOr0 config.max
  let decimalPlaces := max (decOr0 config.min) (decOr0 config.max)
  let randomValue := minF + r * (maxF - minF)
  ⟨goRound (randomValue * (10 : ℚ) ^ decimalPlaces), decimalPlaces⟩

/-! ## Wave generator (`simulateWave`, `rule_types.go:341`) -/

/-- The phase of `simulateWave`: `float64(now)/1e9/period*2*math.Pi`,
with `period` falling back to `60` when `WavePeriod ≤ 0`
(`now` is `time.Now().UnixNano()`). -/
noncomputable def wavePhase (config : PropertySimConfig) (now : ℤ) : ℝ :=
  (now : ℝ) / 10 ^ 9 /
    ((if config.wavePeriod ≤ 0 then (60 : ℚ) else (config.wavePeriod : ℚ)) : ℝ) *
    2 * Real.pi

/-- The raw (unrounded) wave sample of `simulateWave`:
`math.Sin(phase)*amplitude + (min+max)/2`. -/
noncomputable def waveRaw (config : PropertySimConfig) (now : ℤ) : ℝ :=
  Real.sin (wavePhase config now) * ((numOr0 config.amplitude : ℚ) : ℝ) +
    (((numOr0 config.min + numOr0 config.max) / 2 : ℚ) : ℝ)

/-- `simulateWave` (`rule_types.go:341`): the wave sample rounded to
`d = max(decimals(min), decimals(max))` places and formatted (`d = 0` via
`int64(math.Round v)`, `d > 0` via `math.Round(v*10^d)/10^d` printed with
`d` decimals). -/
noncomputable def simulateWave (config : PropertySimConfig) (now : ℤ) : NumLit :=
  ⟨goRound (waveRaw config now *
      (10 : ℝ) ^ (max (decOr0 config.min) (decOr0 config.max))),
    max (decOr0 config.min) (decOr0 config.max)⟩

/-- Concrete `wave` configuration exhibiting the rounding overshoot of C3:
`min 0`, `max 1` (integer literals, so output precision 0), amplitude
`0.06`, period 60 s. -/
noncomputable def waveCfgC3 : PropertySimConfig :=
  { method := "wave", min := some ⟨0, 0⟩, max := some ⟨1, 0⟩,
    amplitude := some ⟨6, 2⟩, wavePeriod := 60 }

/-! ## Accumulate generator (`simulateAccumulate`, `rule_types.go:373`) -/

/-- Round to nearest, ties to even: the rounding Go's `fmt` applies when
printing a value with `%.2f`. -/
def rndHalfEven (q : ℚ) : ℤ :=
  if q - ⌊q⌋ < 1 / 2 then ⌊q⌋
  else if 1 / 2 < q - ⌊q⌋ then ⌊q⌋ + 1
  else if 2 ∣ ⌊q⌋ then ⌊q⌋ else ⌊q⌋ + 1

/-- The canonical decimal form of the literal `⟨m, d⟩`: trailing
fractional zeros removed (the digits Go's shortest-form float printing
emits for the float64 parsed from that literal). -/
def stripZeros : ℤ → ℕ → NumLit
  | m, 0 => ⟨m, 0⟩
  | m, d + 1 => if m % 10 = 0 then stripZeros (m / 10) d else ⟨m, d + 1⟩

/-- Remove every trailing decimal zero of an integer (fuel-bounded; 400
digits covers the float64 decimal range). -/
def stripTensAux : ℕ → ℤ → ℤ
  | 0, m => m
  | f + 1, m => if m % 10 = 0 ∧ m ≠ 0 then stripTensAux f (m / 10) else m

/-- Whether `fmt.Sprintf("%v", f)` of the float64 with canonical decimal
digits `c` (`c = stripZeros m d`, trailing fractional zeros gone)
contains no decimal point.  Per Go's `strconv.FormatFloat(f, 'g', -1)`:
zero prints `"0"`; a value whose decimal exponent is in `[-4, 21)`
(i.e. `10^-4 ≤ |f| < 10^21`, as `10^c.decimals ≤ |mantissa|*10^4` and
`|mantissa| < 10^(c.decimals+21)`) prints in fixed notation, which has
a dot exactly when fractional digits remain; anything else prints in
exponent notation, which has a dot exactly when the significand has
more than one digit. -/
def noDotCanonical (c : NumLit) : Bool :=
  if c.mantissa = 0 then true
  else if 10 ^ c.decimals ≤ c.mantissa.natAbs * 10 ^ 4 ∧
      c.mantissa.natAbs < 10 ^ (c.decimals + 21) then
    decide (c.decimals = 0)
  else decide ((stripTensAux 400 c.mantissa).natAbs < 10)

/-- `countDecimalPlaces(fmt.Sprintf("%v", stepF)) == 0` for the float64
parsed from the decimal literal `n`. -/
def goFmtNoDot (n : NumLit) : Bool :=
  noDotCanonical (stripZeros n.mantissa n.decimals)

/-- Output formatting of `simulateAccumulate`: when `%v` of the step
value contains no decimal point (`countDecimalPlaces(fmt.Sprintf("%v",
stepF)) == 0`) the new value is printed as `%d` of `int64(v)`
(truncation); otherwise it is printed with `%.2f`. -/
def accFormat (stepLit : NumLit) (newVal : ℚ) : NumLit :=
  if goFmtNoDot stepLit then ⟨goTrunc newVal, 0⟩
  else ⟨rndHalfEven (newVal * 100), 2⟩

/-- `simulateAccumulate` (`rule_types.go:373`), shared by the
`accumulate` and `increase` methods: read the identifier's stored state
(`0` when absent), add `step`, store the sum back, and return it
formatted (the format branch is decided by `%v` of the step value; the
empty step literal parses to `0`, which prints `"0"`).  The mutable
`internalStates` map is passed and returned explicitly. -/
def simulateAccumulate (identifier : String) (config : PropertySimConfig)
    (states : String → Option ℚ) : NumLit × (String → Option ℚ) :=
  let prevVal := (states identifier).getD 0
  let stepF := numOr0 config.step
  let newVal := prevVal + stepF
  (accFormat (config.step.getD ⟨0, 0⟩) newVal,
    fun k => if k = identifier then some newVal else states k)

/-- `ResetState` (`rule_types.go:419`): delete the identifier's entry
from the internal state map. -/
def ResetState (identifier : String) (states : String → Option ℚ) :
    String → Option ℚ :=
  fun k => if k = identifier then none else states k

/-! ## String primitives (Go `strings` package operations used by the
event evaluator), implemented on character lists with structural (fuel)
recursion so that concrete runs reduce in the kernel. -/

/-- Fuel-driven worker for `splitOnChars`; the fuel is an upper bound on
the scanned list's length, so the fallback first branch is never reached
from `splitOnChars`. -/
def splitAux (sep : List Char) : ℕ → List Char → List Char → List (List Char)
  | 0, cs, acc => [acc.reverse ++ cs]
  | _ + 1, [], acc => [acc.reverse]
  | fuel + 1, c :: rest, acc =>
    if sep.isPrefixOf (c :: rest) then
      acc.reverse :: splitAux sep fuel (List.drop (sep.length - 1) rest) []
    else
      splitAux sep fuel rest (c :: acc)

/-- Go `strings.Split`: split around each leftmost non-overlapping
occurrence of `sep`; an empty separator splits into single characters. -/
def splitOnChars (cs sep : List Char) : List (List Char) :=
  if sep.isEmpty then cs.map (fun c => [c]) else splitAux sep cs.length cs []

/-- Go `strings.Contains`. -/
def containsSub : List Char → List Char → Bool
  | _, [] => true
  | [], _ :: _ => false
  | c :: rest, s :: sub => (s :: sub).isPrefixOf (c :: rest) || containsSub rest (s :: sub)

/-- Go `strings.TrimSpace`: drop leading and trailing whitespace. -/
def trimChars (cs : List Char) : List Char :=
  ((cs.dropWhile Char.isWhitespace).reverse.dropWhile Char.isWhitespace).reverse

/-- Go `strings.Trim(value, quote-cutset)` as used by `compareValues`:
drop leading and trailing double- or single-quote characters. -/
def trimQuoteChars (cs : List Char) : List Char :=
  ((cs.dropWhile fun c => c == '"' || c == '\'').reverse.dropWhile
    fun c => c == '"' || c == '\'').reverse

/-- Decimal digits to a natural number. -/
def digitsToNat (ds : List Char) : ℕ :=
  ds.foldl (fun acc c => acc * 10 + (c.toNat - 48)) 0

/-- Go `strconv.ParseFloat` on plain decimal notation
(`[+-]digits[.digits][eE[+-]digits]`, at least one mantissa digit, no
trailing garbage), returning the exact decimal as a `NumLit`.  The
special forms `Inf`/`NaN`/hexadecimal floats/underscore separators that
`ParseFloat` additionally accepts are outside the model. -/
def parseFloatLit (s : String) : Option NumLit :=
  let cs := s.toList
  let sgn : ℤ × List Char :=
    match cs with
    | '+' :: t => (1, t)
    | '-' :: t => (-1, t)
    | t => (1, t)
  let intDigits := sgn.2.takeWhile Char.isDigit
  let afterInt := sgn.2.dropWhile Char.isDigit
  let frac : List Char × List Char :=
    match afterInt with
    | '.' :: t => (t.takeWhile Char.isDigit, t.dropWhile Char.isDigit)
    | t => ([], t)
  if intDigits.isEmpty && frac.1.isEmpty then none
  else
    let mant : ℤ := sgn.1 * (digitsToNat (intDigits ++ frac.1) : ℤ)
    match frac.2 with
    | [] => some ⟨mant, frac.1.length⟩
    | e :: t =>
      if e == 'e' || e == 'E' then
        let esgn : Bool × List Char :=
          match t with
          | '+' :: t2 => (true, t2)
          | '-' :: t2 => (false, t2)
          | t2 => (true, t2)
        let expDigits := esgn.2.takeWhile Char.isDigit
        let afterExp := esgn.2.dropWhile Char.isDigit
        if expDigits.isEmpty || !afterExp.isEmpty then none
        else
          let ex := digitsToNat expDigits
          if esgn.1 then some ⟨mant * 10 ^ ex, frac.1.length⟩
          else some ⟨mant, frac.1.length + ex⟩
      else none

/-- `strconv.ParseFloat`'s numeric result (float64 modelled as `ℚ`). -/
def parseFloat (s : String) : Option ℚ :=
  (parseFloatLit s).map NumLit.toRat

/-! ## Event evaluator (`event_simulator.go`) -/

/-- A dynamically-typed property value (`interface{}`) as produced and
consumed by the simulator: a float (`float64`/`float32`), an integer
(`int`/`int64`), or a string.  The device runtime reports properties as
formatted strings, so the nested-map unwrapping in `evaluateCondition`
(which extracts `propMap["value"]` from map-valued entries) has no
counterpart here. -/
inductive SimValue where
  | num (q : ℚ)
  | int (n : ℤ)
  | str (s : String)
  deriving Repr, DecidableEq

/-- `convertToFloat` (`event_simulator.go:149`): floats and integers
convert directly; strings go through `strconv.ParseFloat`; anything else
fails. -/
def convertToFloat : SimValue → Option ℚ
  | .num q => some q
  | .int n => some (n : ℚ)
  | .str s => parseFloat s

/-- `fmt.Sprintf("%v", value)`: strings print as themselves, integers in
decimal.  For a non-integral float value Go prints the shortest decimal
form; the model prints `num/den`, which the claims never depend on (the
string-comparison branch is only exercised on string-valued operands in
the theorems below). -/
def formatV : SimValue → String
  | .str s => s
  | .int n => toString n
  | .num q => if q.den = 1 then toString q.num else toString q.num ++ "/" ++ toString q.den

/-- `compareFloat` (`event_simulator.go:168`): numeric comparison;
`==`/`!=` use an epsilon of `1e-9`; unknown operators yield false. -/
def compareFloat (actual : ℚ) (operator : String) (expected : ℚ) : Bool :=
  if operator = ">" then decide (expected < actual)
  else if operator = ">=" then decide (expected ≤ actual)
  else if operator = "<" then decide (actual < expected)
  else if operator = "<=" then decide (actual ≤ expected)
  else if operator = "==" then decide (|actual - expected| < 1 / 10 ^ 9)
  else if operator = "!=" then decide (1 / 10 ^ 9 ≤ |actual - expected|)
  else false

/-- `compareValues` (`event_simulator.go:125`): numeric comparison when
both operands convert to floats; otherwise string comparison of the
formatted actual value against the quote-trimmed literal, where only
`==`/`!=` can succeed. -/
def compareValues (actualValue : SimValue) (operator : String)
    (expectedValue : String) : Bool :=
  match convertToFloat actualValue, parseFloat expectedValue with
  | some actualFloat, some expectedFloat =>
    compareFloat actualFloat operator expectedFloat
  | _, _ =>
    if operator = "==" then
      formatV actualValue == String.mk (trimQuoteChars expectedValue.toList)
    else if operator = "!=" then
      formatV actualValue != String.mk (trimQuoteChars expectedValue.toList)
    else false

/-- The fixed operator precedence list of `evaluateCondition`
(`event_simulator.go:75`). -/
def operatorList : List String := [">=", "<=", "==", "!=", ">", "<"]

/-- The operator-selection loop of `evaluateCondition`: the first
operator in the list whose `strings.Split` yields exactly two parts wins
(`strings.Contains` followed by the `len(parts) == 2` check is
equivalent to requiring exactly one occurrence). -/
def findOperator (cond : List Char) :
    List String → Option (String × List Char × List Char)
  | [] => none
  | op :: rest =>
    match splitOnChars cond op.toList with
    | [l, r] => some (op, l, r)
    | _ => findOperator cond rest

/-- The parsing phase of `evaluateCondition` (`event_simulator.go:67`):
trim the condition, reject the empty string, select an operator, trim
both sides, and reject an empty property name or literal. -/
def parseCondition (condition : String) : Option (String × String × String) :=
  let cond := trimChars condition.toList
  if cond.isEmpty then none
  else
    match findOperator cond operatorList with
    | none => none
    | some (op, l, r) =>
      let prop := trimChars l
      let value := trimChars r
      if prop.isEmpty || value.isEmpty then none
      else some (String.mk prop, op, String.mk value)

/-- `evaluateCondition` (`event_simulator.go:67`): parse the condition,
look up the named property, compare, and on success return the event
data map `{prop: actualValue}`. -/
def evaluateCondition (condition : String)
    (propertyData : List (String × SimValue)) :
    Bool × Option (List (String × SimValue)) :=
  match parseCondition condition with
  | none => (false, none)
  | some (prop, op, value) =>
    match propertyData.lookup prop with
    | none => (false, none)
    | some propValue =>
      if compareValues propValue op value then (true, some [(prop, propValue)])
      else (false, none)

/-- Modelled from the claim's words, for comparison with the code's
operator selection: "the operators tested in the fixed order `>=`, `<=`,
`==`, `!=`, `>`, `<` against the raw string with the first operator
substring found winning". -/
def specFirstFoundOperator (condition : String) : Option String :=
  operatorList.find? (fun op => containsSub condition.toList op.toList)

/-- `EventSimConfig` (`rule_types.go:35`). -/
structure EventSimConfig where
  identifier : String
  triggerCondition : String
  cooldown : ℤ
  deriving Repr, DecidableEq

/-- The event payload built by `CheckEventTrigger` on a firing:
`{identifier: {"value": eventData, "time": now}}`. -/
structure EventPayload where
  identifier : String
  value : List (String × SimValue)
  time : ℤ
  deriving Repr, DecidableEq

/-- `canTriggerEvent` (`event_simulator.go:56`): an event that never
fired may fire; otherwise `now - lastTime >= cooldown` is required. -/
def canTriggerEvent (config : EventSimConfig)
    (lastTriggerTime : String → Option ℤ) (now : ℤ) : Bool :=
  match lastTriggerTime config.identifier with
  | none => true
  | some lastTime => decide (config.cooldown ≤ now - lastTime)

/-- `CheckEventTrigger` (`event_simulator.go:25`): cooldown gate, then
the empty-condition gate, then condition evaluation; a firing records
`now` as the event's last-trigger time and wraps the event data in a
payload.  The mutable `lastTriggerTime` map is passed and returned
explicitly; `now` is `time.Now().Unix()`. -/
def CheckEventTrigger (config : EventSimConfig)
    (propertyData : List (String × SimValue))
    (lastTriggerTime : String → Option ℤ) (now : ℤ) :
    Bool × Option EventPayload × (String → Option ℤ) :=
  if !canTriggerEvent config lastTriggerTime now then
    (false, none, lastTriggerTime)
  else if config.triggerCondition = "" then
    (false, none, lastTriggerTime)
  else
    match evaluateCondition config.triggerCondition propertyData with
    | (true, some eventData) =>
      (true, some ⟨config.identifier, eventData, now⟩,
        fun k => if k = config.identifier then some now else lastTriggerTime k)
    | _ => (false, none, lastTriggerTime)

/-! ## TSL thing-model (`tsl/tsl_types.go`) -/

/-- `DataSpecs` (`tsl_types.go:143`).  The `float64` fields `Min`/`Max`
are modelled as decimal literals (`NumLit`), matching the JSON documents
they are read from; `True`/`False` are renamed to `trueLabel`/`falseLabel`
(Lean keywords). -/
structure DataSpecs where
  length : ℤ := 0
  unit : String := ""
  unitName : String := ""
  min : NumLit := ⟨0, 0⟩
  max : NumLit := ⟨0, 0⟩
  step : NumLit := ⟨0, 0⟩
  accuracy : ℤ := 0
  enum : String := ""
  trueLabel : String := ""
  falseLabel : String := ""
  enumValue : String := ""
  deriving Repr

/-- `DataType` (`tsl_types.go:137`). -/
structure DataType where
  type : String := ""
  specs : DataSpecs := {}
  deriving Repr

/-- `EventParam` (`tsl_types.go:57`). -/
structure EventParam where
  identifier : String := ""
  name : String := ""
  dataType : DataType := {}
  dataType2 : DataType := {}
  desc : String := ""
  deriving Repr

/-- `ActionParam` (`tsl_types.go:120`). -/
structure ActionParam where
  identifier : String := ""
  name : String := ""
  dataType : DataType := {}
  dataType2 : DataType := {}
  desc : String := ""
  deriving Repr

/-- `Property` (`tsl_types.go:22`): both the camelCase (`dataType`) and
snake_case (`data_type`, here `dataType2`) spellings are carried. -/
structure Property where
  identifier : String
  name : String := ""
  accessMode : String := ""
  required : Bool := false
  dataType : DataType := {}
  dataType2 : DataType := {}
  desc : String := ""
  deriving Repr

/-- `Property.GetDataType` (`tsl_types.go:33`): the snake_case field
wins when it carries a type. -/
def Property.GetDataType (p : Property) : DataType :=
  if p.dataType2.type ≠ "" then p.dataType2 else p.dataType

/-- `Event` (`tsl_types.go:43`). -/
structure Event where
  identifier : String
  name : String := ""
  type : String := ""
  required : Bool := false
  desc : String := ""
  method : String := ""
  outputData : List EventParam := []
  outputData2 : List EventParam := []
  eventType : String := ""
  eventType2 : String := ""
  deriving Repr

/-- `Action` (`tsl_types.go:90`). -/
structure Action where
  identifier : String
  name : String := ""
  required : Bool := false
  callType : String := ""
  desc : String := ""
  method : String := ""
  inputData : List ActionParam := []
  inputData2 : List ActionParam := []
  outputData : List ActionParam := []
  outputData2 : List ActionParam := []
  deriving Repr

/-- `TSLModel` (`tsl_types.go:14`). -/
structure TSLModel where
  version : String := ""
  properties : List Property := []
  events : List Event := []
  actions : List Action := []
  deriving Repr

/-! ## Simulation rule set (`rule_types.go:13`) -/

/-- `ServiceResponse` (`rule_types.go:48`). -/
structure ServiceResponse where
  code : ℤ
  msg : String
  desc : String
  deriving Repr, DecidableEq

/-- `ServiceSimConfig` (`rule_types.go:42`). -/
structure ServiceSimConfig where
  responseStrategy : String
  possibleResponses : List ServiceResponse
  deriving Repr, DecidableEq

/-- `SimulationRule` (`rule_types.go:13`); the JSON maps
`simulationConfig` and `services` are association lists. -/
structure SimulationRule where
  productName : String := ""
  simulationConfig : List (String × PropertySimConfig) := []
  events : List EventSimConfig := []
  services : List (String × ServiceSimConfig) := []

/-! ## Rule/model consistency (`device_factory.go:213`) -/

/-- `validateTSLRuleConsistency` (`device_factory.go:213`): properties
are checked in both directions (every declared property must be
configured, every configured property must be declared); events and
services are checked in one direction only (every configured event or
service must be declared).  Returns the first error, or `none` for ok. -/
def validateTSLRuleConsistency (tslModel : TSLModel) (rule : SimulationRule) :
    Option String :=
  match tslModel.properties.find?
      (fun prop => (rule.simulationConfig.lookup prop.identifier).isNone) with
  | some prop =>
    some ("property declared in TSL but not configured in rule: " ++ prop.identifier)
  | none =>
    match rule.simulationConfig.find?
        (fun kv => !(tslModel.properties.any (fun p => p.identifier == kv.1))) with
    | some kv =>
      some ("property configured in rule but not declared in TSL: " ++ kv.1)
    | none =>
      match rule.events.find?
          (fun ec => !(tslModel.events.any (fun e => e.identifier == ec.identifier))) with
      | some ec =>
        some ("event configured in rule but not declared in TSL: " ++ ec.identifier)
      | none =>
        match rule.services.find?
            (fun kv => !(tslModel.actions.any (fun a => a.identifier == kv.1))) with
        | some kv =>
          some ("service configured in rule but not declared in TSL: " ++ kv.1)
        | none => none

/-- Modelled from the claim's words, for comparison with the code's
validator: the property identifiers of the model and the keys of the
rule's `simulationConfig` are in bijection (as identifier sets), and the
same two-directional correspondence holds for event identifiers and for
service identifiers. -/
def specIdentifierBijection (m : TSLModel) (rule : SimulationRule) : Bool :=
  m.properties.all (fun p => rule.simulationConfig.any (fun kv => kv.1 == p.identifier)) &&
  rule.simulationConfig.all (fun kv => m.properties.any (fun p => p.identifier == kv.1)) &&
  m.events.all (fun e => rule.events.any (fun ec => ec.identifier == e.identifier)) &&
  rule.events.all (fun ec => m.events.any (fun e => e.identifier == ec.identifier)) &&
  m.actions.all (fun a => rule.services.any (fun kv => kv.1 == a.identifier)) &&
  rule.services.all (fun kv => m.actions.any (fun a => a.identifier == kv.1))

/-! ## Default rule generation (`device_factory.go:98`) -/

/-- `generateDefaultPropertyConfig` (`device_factory.go:160`);
`fmt.Sprintf("%v", f)` of a spec bound is its canonical decimal form,
`stripZeros`. -/
def generateDefaultPropertyConfig (prop : Property) : PropertySimConfig :=
  let dataType := prop.GetDataType
  if dataType.type = "float" ∨ dataType.type = "double" then
    if dataType.specs.min.toRat ≠ 0 ∨ dataType.specs.max.toRat ≠ 0 then
      { method := "randomRange",
        min := some (stripZeros dataType.specs.min.mantissa dataType.specs.min.decimals),
        max := some (stripZeros dataType.specs.max.mantissa dataType.specs.max.decimals),
        step := some ⟨1, 1⟩ }
    else
      { method := "randomRange", min := some ⟨0, 1⟩, max := some ⟨1000, 1⟩,
        step := some ⟨1, 1⟩ }
  else if dataType.type = "int" ∨ dataType.type = "long" then
    if dataType.specs.min.toRat ≠ 0 ∨ dataType.specs.max.toRat ≠ 0 then
      { method := "randomRange",
        min := some ⟨goTrunc dataType.specs.min.toRat, 0⟩,
        max := some ⟨goTrunc dataType.specs.max.toRat, 0⟩,
        step := some ⟨1, 0⟩ }
    else
      { method := "randomRange", min := some ⟨0, 0⟩, max := some ⟨100, 0⟩,
        step := some ⟨1, 0⟩ }
  else if dataType.type = "bool" then
    { method := "enum", enumValues := ["true", "false"], switchProbability := 3 / 10 }
  else if dataType.type = "text" ∨ dataType.type = "string" then
    { method := "enum", enumValues := ["value1", "value2", "value3"],
      switchProbability := 3 / 10 }
  else if dataType.type = "enum" then
    { method := "enum",
      enumValues := if dataType.specs.enum ≠ "" then [dataType.specs.enum]
        else ["enum1", "enum2", "enum3"],
      switchProbability := 3 / 10 }
  else
    { method := "randomRange" }

/-- `GenerateEmptyRule` (`device_factory.go:98`), its pure core: build a
rule with a default config per property, an event entry with an *empty*
trigger condition and a 60 s cooldown per declared event, and a fixed
two-candidate service config per action.  The product name comes from
the TSL file name (`"unknown"` when it cannot be derived); the
file-loading wrapper is outside the model. -/
def GenerateEmptyRule (productName : String) (tslModel : TSLModel) :
    SimulationRule :=
  { productName := if productName = "" then "unknown" else productName,
    simulationConfig := tslModel.properties.map
      (fun prop => (prop.identifier, generateDefaultPropertyConfig prop)),
    events := tslModel.events.map
      (fun event =>
        { identifier := event.identifier, triggerCondition := "", cooldown := 60 }),
    services := tslModel.actions.map
      (fun action => (action.identifier,
        { responseStrategy := "fixed",
          possibleResponses :=
            [⟨200, "ok", action.name ++ "执行成功"⟩,
             ⟨500, "fail", action.name ++ "执行失败"⟩] })) }

/-! ## Service simulator (`service_simulator.go`) -/

/-- The default success response (`service_simulator.go:27`). -/
def defaultServiceResponse : ServiceResponse := ⟨200, "ok", "操作成功"⟩

/-- `getFixedResponse` (`service_simulator.go:36`): the first candidate,
or the default success response when the list is empty. -/
def getFixedResponse (config : ServiceSimConfig) : ServiceResponse :=
  match config.possibleResponses with
  | r :: _ => r
  | [] => defaultServiceResponse

/-- `getRandomResponse` (`service_simulator.go:49`): a uniformly random
candidate; `rand.Intn len` is modelled by the draw `k` reduced modulo
the list length. -/
def getRandomResponse (config : ServiceSimConfig) (k : ℕ) : ServiceResponse :=
  match config.possibleResponses with
  | [] => defaultServiceResponse
  | r :: rest =>
    (r :: rest).getD (k % (r :: rest).length) defaultServiceResponse

/-- `SimulateServiceResponse` (`service_simulator.go:19`). -/
def SimulateServiceResponse (config : ServiceSimConfig) (k : ℕ) :
    ServiceResponse :=
  if config.responseStrategy = "fixed" then getFixedResponse config
  else if config.responseStrategy = "random" ∨
      config.responseStrategy = "randomPick" then getRandomResponse config k
  else defaultServiceResponse

/-! ## Managed device (`manager/managed_device.go`) -/

/-- `DeviceStatus` (`managed_device.go:18`). -/
inductive DeviceStatus where
  | stopped
  | starting
  | running
  | stopping
  | error
  | restarting
  deriving Repr, DecidableEq

/-- The supervision-relevant mutable state of a `ManagedDevice`
(`managed_device.go:30`): status, restart counter, configured maximum,
and the last heartbeat timestamp (seconds). -/
structure ManagedDeviceState where
  status : DeviceStatus
  restartCount : ℕ
  maxRestartCount : ℕ
  lastHeartbeat : ℤ
  deriving Repr, DecidableEq

/-- `NewManagedDevice` (`managed_device.go:74`): a fresh device starts
`Stopped` with `maxRestartCount = 5` and zero restarts. -/
def NewManagedDevice : ManagedDeviceState :=
  { status := .stopped, restartCount := 0, maxRestartCount := 5,
    lastHeartbeat := 0 }

/-- `ShouldRestart` (`managed_device.go:449`). -/
def ShouldRestart (md : ManagedDeviceState) : Bool :=
  decide (md.status = DeviceStatus.error) &&
    decide (md.restartCount < md.maxRestartCount)

/-- `IsHealthy` (`managed_device.go:432`): `Running` and a heartbeat no
older than 5 minutes. -/
def IsHealthy (md : ManagedDeviceState) (now : ℤ) : Bool :=
  decide (md.status = DeviceStatus.running) &&
    decide (now - md.lastHeartbeat ≤ 5 * 60)

/-- The crash path of `runDevice` (`managed_device.go:188`): an
unexpected failure or panic sets the status to `Error` and touches
nothing else (in particular not the restart counter). -/
def crashTransition (md : ManagedDeviceState) : ManagedDeviceState :=
  { md with status := .error }

/-- The synchronous part of `Restart` (`managed_device.go:150`): a
restart already in flight is refused; otherwise the status becomes
`Restarting` and the restart counter is incremented (the asynchronous
relaunch is outside the model). -/
def Restart (md : ManagedDeviceState) : ManagedDeviceState :=
  if md.status = DeviceStatus.restarting then md
  else { md with status := .restarting, restartCount := md.restartCount + 1 }

/-- One unit's step of the fleet health sweep
(`device_manager.go:541`): restart exactly when the unit is unhealthy
and `ShouldRestart` holds. -/
def healthSweepStep (md : ManagedDeviceState) (now : ℤ) : ManagedDeviceState :=
  if !(IsHealthy md now) && ShouldRestart md then Restart md else md

/-! ## Property set-call validation
(`simulated_device.go:368`, `rule_types.go:458`) -/

/-- `ValidatePropertyValue` (`rule_types.go:458`): `randomRange`/`wave`
check the numeric range (a float value directly, a string through
`ParseFloat`, any other type is rejected); `enum`/`enumPick` check
membership of the `%v`-formatted value; every other method accepts
anything. -/
def ValidatePropertyValue (value : SimValue) (config : PropertySimConfig) :
    Option String :=
  if config.method = "randomRange" ∨ config.method = "wave" then
    match value with
    | .num q =>
      if q < numOr0 config.min ∨ q > numOr0 config.max then
        some "value out of range" else none
    | .str s =>
      match parseFloat s with
      | none => some "value is not a valid number"
      | some q =>
        if q < numOr0 config.min ∨ q > numOr0 config.max then
          some "value out of range" else none
    | .int _ => some "unsupported value type"
  else if config.method = "enum" ∨ config.method = "enumPick" then
    if config.enumValues.contains (formatV value) then none
    else some "value not in enum list"
  else none

/-- `setPropertyValue` (`simulated_device.go:368`): look up the
property's generation config, validate the incoming value against it
(when a config exists), and log; the generator state map is never
touched.  The `PropertySimulator` state is passed and returned
explicitly to express that frame property. -/
def setPropertyValue (rule : SimulationRule) (states : String → Option ℚ)
    (identifier : String) (value : SimValue) :
    Option String × (String → Option ℚ) :=
  match rule.simulationConfig.lookup identifier with
  | some config =>
    match ValidatePropertyValue value config with
    | some e => (some ("property value validation failed: " ++ e), states)
    | none => (none, states)
  | none => (none, states)

end IotUplinkGen

namespace IotUplinkGen

/-! ## Arithmetic helper lemmas for Go-style rounding -/

theorem goRound_intCast {α : Type} [LinearOrderedField α] [FloorRing α]
    (z : ℤ) : goRound (z : α) = z := by
  unfold goRound
  by_cases h : (0 : α) ≤ (z : α)
  · rw [if_pos h]
    rw [add_comm, Int.floor_add_int]
    norm_num
  · rw [if_neg h]
    rw [← Int.cast_neg, add_comm, Int.floor_add_int]
    norm_num

theorem goRound_mono {α : Type} [LinearOrderedField α] [FloorRing α]
    {a b : α} (h : a ≤ b) : goRound a ≤ goRound b := by
  unfold goRound
  by_cases ha : 0 ≤ a
  · have hb : 0 ≤ b := le_trans ha h
    rw [if_pos ha, if_pos hb]
    exact Int.floor_le_floor (by linarith)
  · by_cases hb : 0 ≤ b
    · rw [if_neg ha, if_pos hb]
      have h1 : (0 : ℤ) ≤ ⌊b + 1 / 2⌋ := by
        apply Int.floor_nonneg.mpr; linarith
      have h2 : (0 : ℤ) ≤ ⌊-a + 1 / 2⌋ := by
        apply Int.floor_nonneg.mpr
        push_neg at ha
        linarith
      omega
    · rw [if_neg ha, if_neg hb]
      have : ⌊-b + 1 / 2⌋ ≤ ⌊-a + 1 / 2⌋ := Int.floor_le_floor (by linarith)
      omega

theorem goRound_le {α : Type} [LinearOrderedField α] [FloorRing α]
    (x : α) : (goRound x : α) ≤ x + 1 / 2 := by
  unfold goRound
  by_cases h : 0 ≤ x
  · rw [if_pos h]; exact Int.floor_le _
  · rw [if_neg h]
    push_cast
    have := Int.lt_floor_add_one (-x + 1 / 2)
    push_cast at this
    linarith

theorem le_goRound {α : Type} [LinearOrderedField α] [FloorRing α]
    (x : α) : x - 1 / 2 ≤ (goRound x : α) := by
  unfold goRound
  by_cases h : 0 ≤ x
  · rw [if_pos h]
    have := Int.lt_floor_add_one (x + 1 / 2)
    linarith
  · rw [if_neg h]
    push_cast
    have := Int.floor_le (-x + 1 / 2)
    linarith

/-- A literal with at most `d` decimal digits sits exactly on the
`10^(-d)` grid. -/
theorem numLit_on_grid (n : NumLit) (d : ℕ) (h : n.decimals ≤ d) :
    n.toRat * (10 : ℚ) ^ d = ((n.mantissa * 10 ^ (d - n.decimals) : ℤ) : ℚ) := by
  unfold NumLit.toRat
  have h10 : ((10 : ℚ) ^ n.decimals) ≠ 0 := by positivity
  push_cast
  rw [div_mul_eq_mul_div, div_eq_iff h10, mul_assoc, ← pow_add, Nat.sub_add_cancel h]

end IotUplinkGen

/-- C2: for a `randomRange` config with `min < max` and a random draw
`r ∈ [0,1)`, the generated value (parsed as a number) lies in
`[min, max]`, and its decimal-place count is the larger of the
decimal-place counts of the `min` and `max` literals. -/
theorem C2_randomRange_in_range_and_precision
    (config : IotUplinkGen.PropertySimConfig) (r : ℚ)
    (hlt : IotUplinkGen.numOr0 config.min < IotUplinkGen.numOr0 config.max)
    (hr0 : 0 ≤ r) (hr1 : r < 1) :
    IotUplinkGen.numOr0 config.min ≤ (IotUplinkGen.simulateRandomRange config r).toRat ∧
    (IotUplinkGen.simulateRandomRange config r).toRat ≤ IotUplinkGen.numOr0 config.max ∧
    (IotUplinkGen.simulateRandomRange config r).decimals =
      max (IotUplinkGen.decOr0 config.min) (IotUplinkGen.decOr0 config.max) := by
  classical
  set mn := IotUplinkGen.numOr0 config.min with hmn
  set mx := IotUplinkGen.numOr0 config.max with hmx
  set d := max (IotUplinkGen.decOr0 config.min) (IotUplinkGen.decOr0 config.max) with hd
  have hpow : (0 : ℚ) < (10 : ℚ) ^ d := by positivity
  have hv_lo : mn ≤ mn + r * (mx - mn) := by nlinarith
  have hv_hi : mn + r * (mx - mn) ≤ mx := by nlinarith
  -- the endpoints are exactly on the 10^(-d) grid
  have grid : ∀ (o : Option IotUplinkGen.NumLit), IotUplinkGen.decOr0 o ≤ d →
      ∃ z : ℤ, IotUplinkGen.numOr0 o * (10 : ℚ) ^ d = (z : ℚ) := by
    intro o ho
    cases o with
    | none => exact ⟨0, by simp [IotUplinkGen.numOr0]⟩
    | some n =>
      exact ⟨n.mantissa * 10 ^ (d - n.decimals),
        IotUplinkGen.numLit_on_grid n d (by simpa [IotUplinkGen.decOr0] using ho)⟩
  obtain ⟨zmn, hzmn⟩ := grid config.min (le_max_left _ _)
  obtain ⟨zmx, hzmx⟩ := grid config.max (le_max_right _ _)
  have key_lo : zmn ≤ IotUplinkGen.goRound ((mn + r * (mx - mn)) * (10 : ℚ) ^ d) := by
    have : IotUplinkGen.goRound ((zmn : ℚ)) ≤
        IotUplinkGen.goRound ((mn + r * (mx - mn)) * (10 : ℚ) ^ d) := by
      apply IotUplinkGen.goRound_mono
      rw [← hzmn]
      nlinarith
    simpa [IotUplinkGen.goRound_intCast] using this
  have key_hi : IotUplinkGen.goRound ((mn + r * (mx - mn)) * (10 : ℚ) ^ d) ≤ zmx := by
    have : IotUplinkGen.goRound ((mn + r * (mx - mn)) * (10 : ℚ) ^ d) ≤
        IotUplinkGen.goRound ((zmx : ℚ)) := by
      apply IotUplinkGen.goRound_mono
      rw [← hzmx]
      nlinarith
    simpa [IotUplinkGen.goRound_intCast] using this
  refine ⟨?_, ?_, rfl⟩
  · show mn ≤ (IotUplinkGen.goRound ((mn + r * (mx - mn)) * (10 : ℚ) ^ d) : ℚ) / (10 : ℚ) ^ d
    rw [le_div_iff₀ hpow, hzmn]
    exact_mod_cast key_lo
  · show (IotUplinkGen.goRound ((mn + r * (mx - mn)) * (10 : ℚ) ^ d) : ℚ) / (10 : ℚ) ^ d ≤ mx
    rw [div_le_iff₀ hpow, hzmx]
    exact_mod_cast key_hi

/-- Witness for C2 at a concrete config: `min = 500`, `max = 2500`,
`r = 1/3`. -/
theorem C2_randomRange_witness :
    IotUplinkGen.numOr0 (some ⟨500, 0⟩) < IotUplinkGen.numOr0 (some ⟨2500, 0⟩) ∧
    (0 : ℚ) ≤ 1 / 3 ∧ (1 : ℚ) / 3 < 1 ∧
    IotUplinkGen.numOr0 (some ⟨500, 0⟩) ≤
      (IotUplinkGen.simulateRandomRange
        { method := "randomRange", min := some ⟨500, 0⟩, max := some ⟨2500, 0⟩ } (1 / 3)).toRat :=
  ⟨by norm_num [IotUplinkGen.numOr0, IotUplinkGen.NumLit.toRat], by norm_num, by norm_num,
    (C2_randomRange_in_range_and_precision
      { method := "randomRange", min := some ⟨500, 0⟩, max := some ⟨2500, 0⟩ } (1 / 3)
      (by norm_num [IotUplinkGen.numOr0, IotUplinkGen.NumLit.toRat]) (by norm_num)
      (by norm_num)).1⟩

namespace IotUplinkGen

theorem waveCfgC3_phase : wavePhase waveCfgC3 15000000000 = Real.pi / 2 := by
  have h60 : ((if waveCfgC3.wavePeriod ≤ 0 then (60 : ℚ)
      else (waveCfgC3.wavePeriod : ℚ)) : ℝ) = 60 := by
    norm_num [waveCfgC3]
  unfold wavePhase
  rw [h60]
  push_cast
  have hx : ((15000000000 : ℝ) / 10 ^ 9 / 60) * 2 = 1 / 2 := by norm_num
  rw [hx]
  ring

end IotUplinkGen

/-- C3 counterexample: for the `wave` config with `min 0`, `max 1`,
`amplitude 0.06`, `period 60`, at wall-clock nanosecond 15000000000 the
phase is `π/2`, the raw sample is `0.56`, and the value returned (parsed
as a number) is `1`, which is *not* within
`[center - amplitude, center + amplitude] = [0.44, 0.56]`. -/
theorem C3_wave_counterexample :
    (IotUplinkGen.simulateWave IotUplinkGen.waveCfgC3 15000000000).toRat = 1 ∧
    (IotUplinkGen.numOr0 IotUplinkGen.waveCfgC3.min +
        IotUplinkGen.numOr0 IotUplinkGen.waveCfgC3.max) / 2 +
      IotUplinkGen.numOr0 IotUplinkGen.waveCfgC3.amplitude = 14 / 25 ∧
    ¬ ((IotUplinkGen.simulateWave IotUplinkGen.waveCfgC3 15000000000).toRat ≤
        (IotUplinkGen.numOr0 IotUplinkGen.waveCfgC3.min +
            IotUplinkGen.numOr0 IotUplinkGen.waveCfgC3.max) / 2 +
          IotUplinkGen.numOr0 IotUplinkGen.waveCfgC3.amplitude) := by
  have hraw : IotUplinkGen.waveRaw IotUplinkGen.waveCfgC3 15000000000 = 14 / 25 := by
    unfold IotUplinkGen.waveRaw
    rw [IotUplinkGen.waveCfgC3_phase, Real.sin_pi_div_two]
    norm_num [IotUplinkGen.waveCfgC3, IotUplinkGen.numOr0, IotUplinkGen.NumLit.toRat]
  have hval : IotUplinkGen.simulateWave IotUplinkGen.waveCfgC3 15000000000 =
      ⟨1, 0⟩ := by
    unfold IotUplinkGen.simulateWave
    rw [hraw]
    have hd : max (IotUplinkGen.decOr0 IotUplinkGen.waveCfgC3.min)
        (IotUplinkGen.decOr0 IotUplinkGen.waveCfgC3.max) = 0 := by
      norm_num [IotUplinkGen.waveCfgC3, IotUplinkGen.decOr0]
    rw [hd]
    have hr : IotUplinkGen.goRound ((14 / 25 : ℝ) * (10 : ℝ) ^ (0 : ℕ)) = 1 := by
      unfold IotUplinkGen.goRound
      rw [if_pos (by norm_num)]
      rw [Int.floor_eq_iff]
      constructor <;> norm_num
    rw [hr]
  refine ⟨by rw [hval]; norm_num [IotUplinkGen.NumLit.toRat], ?_, ?_⟩
  · norm_num [IotUplinkGen.waveCfgC3, IotUplinkGen.numOr0, IotUplinkGen.NumLit.toRat]
  · rw [hval]
    norm_num [IotUplinkGen.waveCfgC3, IotUplinkGen.numOr0, IotUplinkGen.NumLit.toRat]

/-- C3 amended: for every `wave` config with non-negative amplitude and
any wall-clock time, the returned value (parsed as a number) lies within
`[center - amplitude - u/2, center + amplitude + u/2]` where
`center = (min+max)/2` and `u = 10^(-d)` is the output's rounding step
(`d` being the larger decimal-place count of the `min`/`max` literals);
the half-step widening is exactly the error introduced by rounding the
sinusoid sample to the output precision. -/
theorem C3_wave_amended (config : IotUplinkGen.PropertySimConfig) (now : ℤ)
    (hamp : 0 ≤ IotUplinkGen.numOr0 config.amplitude) :
    (((IotUplinkGen.numOr0 config.min + IotUplinkGen.numOr0 config.max) / 2 -
        IotUplinkGen.numOr0 config.amplitude : ℚ) : ℝ) -
      1 / (2 * (10 : ℝ) ^ (max (IotUplinkGen.decOr0 config.min) (IotUplinkGen.decOr0 config.max)))
      ≤ ((IotUplinkGen.simulateWave config now).toRat : ℝ) ∧
    ((IotUplinkGen.simulateWave config now).toRat : ℝ) ≤
      (((IotUplinkGen.numOr0 config.min + IotUplinkGen.numOr0 config.max) / 2 +
        IotUplinkGen.numOr0 config.amplitude : ℚ) : ℝ) +
      1 / (2 * (10 : ℝ) ^ (max (IotUplinkGen.decOr0 config.min) (IotUplinkGen.decOr0 config.max))) := by
  classical
  have hsin_lo := Real.neg_one_le_sin (IotUplinkGen.wavePhase config now)
  have hsin_hi := Real.sin_le_one (IotUplinkGen.wavePhase config now)
  set d := max (IotUplinkGen.decOr0 config.min) (IotUplinkGen.decOr0 config.max) with hd
  set w := IotUplinkGen.waveRaw config now with hw
  have hampR : (0 : ℝ) ≤ ((IotUplinkGen.numOr0 config.amplitude : ℚ) : ℝ) := by
    exact_mod_cast hamp
  have hw_lo : (((IotUplinkGen.numOr0 config.min + IotUplinkGen.numOr0 config.max) / 2 : ℚ) : ℝ)
      - ((IotUplinkGen.numOr0 config.amplitude : ℚ) : ℝ) ≤ w := by
    rw [hw]
    unfold IotUplinkGen.waveRaw
    push_cast
    nlinarith
  have hw_hi : w ≤
      (((IotUplinkGen.numOr0 config.min + IotUplinkGen.numOr0 config.max) / 2 : ℚ) : ℝ)
      + ((IotUplinkGen.numOr0 config.amplitude : ℚ) : ℝ) := by
    rw [hw]
    unfold IotUplinkGen.waveRaw
    push_cast
    nlinarith
  have hpow : (0 : ℝ) < (10 : ℝ) ^ d := by positivity
  have htoRat : ((IotUplinkGen.simulateWave config now).toRat : ℝ) =
      ((IotUplinkGen.goRound (w * (10 : ℝ) ^ d) : ℤ) : ℝ) / (10 : ℝ) ^ d := by
    unfold IotUplinkGen.simulateWave IotUplinkGen.NumLit.toRat
    push_cast
    rfl
  have hlo := IotUplinkGen.le_goRound (w * (10 : ℝ) ^ d)
  have hhi := IotUplinkGen.goRound_le (w * (10 : ℝ) ^ d)
  rw [htoRat]
  push_cast at hw_lo hw_hi hlo hhi ⊢
  have hcancel : (1 / (2 * (10 : ℝ) ^ d)) * (10 : ℝ) ^ d = 1 / 2 := by
    field_simp
    ring
  constructor
  · rw [le_div_iff₀ hpow, sub_mul, hcancel]
    have := mul_le_mul_of_nonneg_right hw_lo hpow.le
    linarith
  · rw [div_le_iff₀ hpow, add_mul, hcancel]
    have := mul_le_mul_of_nonneg_right hw_hi hpow.le
    linarith

/-- Witness for C3 amended at the counterexample config and time: the
amplitude is non-negative and the value `1` respects the widened upper
bound `0.56 + 0.5`. -/
theorem C3_wave_amended_witness :
    (0 : ℚ) ≤ IotUplinkGen.numOr0 IotUplinkGen.waveCfgC3.amplitude ∧
    ((IotUplinkGen.simulateWave IotUplinkGen.waveCfgC3 15000000000).toRat : ℝ) ≤
      (((IotUplinkGen.numOr0 IotUplinkGen.waveCfgC3.min +
          IotUplinkGen.numOr0 IotUplinkGen.waveCfgC3.max) / 2 +
        IotUplinkGen.numOr0 IotUplinkGen.waveCfgC3.amplitude : ℚ) : ℝ) +
      1 / (2 * (10 : ℝ) ^ (max (IotUplinkGen.decOr0 IotUplinkGen.waveCfgC3.min)
        (IotUplinkGen.decOr0 IotUplinkGen.waveCfgC3.max))) :=
  ⟨by norm_num [IotUplinkGen.waveCfgC3, IotUplinkGen.numOr0, IotUplinkGen.NumLit.toRat],
    (C3_wave_amended IotUplinkGen.waveCfgC3 15000000000
      (by norm_num [IotUplinkGen.waveCfgC3, IotUplinkGen.numOr0,
        IotUplinkGen.NumLit.toRat])).2⟩

namespace IotUplinkGen

/-! ## Helper lemmas for the accumulate formatter -/

theorem goTrunc_mono {α : Type} [LinearOrderedField α] [FloorRing α]
    {a b : α} (h : a ≤ b) : goTrunc a ≤ goTrunc b := by
  unfold goTrunc
  by_cases ha : 0 ≤ a
  · rw [if_pos ha, if_pos (le_trans ha h)]
    exact Int.floor_le_floor h
  · by_cases hb : 0 ≤ b
    · rw [if_neg ha, if_pos hb]
      push_neg at ha
      have h1 : ⌈a⌉ ≤ (0 : ℤ) := Int.ceil_le.mpr (by exact_mod_cast ha.le)
      have h2 : (0 : ℤ) ≤ ⌊b⌋ := Int.floor_nonneg.mpr hb
      omega
    · rw [if_neg ha, if_neg hb]
      exact Int.ceil_le_ceil h

theorem goTrunc_intCast {α : Type} [LinearOrderedField α] [FloorRing α]
    (z : ℤ) : goTrunc (z : α) = z := by
  unfold goTrunc
  split_ifs <;> simp

theorem floor_le_rndHalfEven (q : ℚ) : ⌊q⌋ ≤ rndHalfEven q := by
  unfold rndHalfEven
  split_ifs <;> omega

theorem rndHalfEven_le_floor_add_one (q : ℚ) : rndHalfEven q ≤ ⌊q⌋ + 1 := by
  unfold rndHalfEven
  split_ifs <;> omega

theorem rndHalfEven_mono {a b : ℚ} (h : a ≤ b) :
    rndHalfEven a ≤ rndHalfEven b := by
  have hf : ⌊a⌋ ≤ ⌊b⌋ := Int.floor_le_floor h
  rcases lt_or_eq_of_le hf with hlt | heq
  · have h1 := rndHalfEven_le_floor_add_one a
    have h2 := floor_le_rndHalfEven b
    omega
  · have hfr : a - ⌊a⌋ ≤ b - ⌊b⌋ := by
      rw [← heq]
      linarith
    unfold rndHalfEven
    rw [← heq]
    split_ifs <;> first | omega | linarith

theorem rndHalfEven_intCast (z : ℤ) : rndHalfEven ((z : ℚ)) = z := by
  unfold rndHalfEven
  rw [Int.floor_intCast]
  rw [if_pos (by norm_num)]

/-- The value printed by the accumulate formatter is monotone in the
accumulated value. -/
theorem accFormat_toRat_mono (stepLit : NumLit) {a b : ℚ} (h : a ≤ b) :
    (accFormat stepLit a).toRat ≤ (accFormat stepLit b).toRat := by
  unfold accFormat
  split_ifs with hfmt
  · unfold NumLit.toRat
    simp only [pow_zero, div_one]
    exact_mod_cast goTrunc_mono h
  · unfold NumLit.toRat
    have h100 : a * 100 ≤ b * 100 := by linarith
    have hz : ((rndHalfEven (a * 100) : ℤ) : ℚ) ≤ ((rndHalfEven (b * 100) : ℤ) : ℚ) := by
      exact_mod_cast rndHalfEven_mono h100
    have hpos : (0 : ℚ) < (10 : ℚ) ^ (2 : ℕ) := by norm_num
    exact (div_le_div_iff_of_pos_right hpos).mpr hz

/-! ## Bridge lemmas between a step literal's value and the
no-decimal-point test of its default rendering -/

/-- Stripping trailing fractional zeros preserves the denoted value. -/
theorem stripZeros_toRat (d : ℕ) : ∀ m : ℤ,
    (stripZeros m d).toRat = NumLit.toRat ⟨m, d⟩ := by
  induction d with
  | zero => intro m; rfl
  | succ d ih =>
    intro m
    unfold stripZeros
    by_cases h : m % 10 = 0
    · rw [if_pos h, ih (m / 10)]
      unfold NumLit.toRat
      have hm : (10 : ℤ) * (m / 10) = m := by omega
      rw [← hm]
      push_cast
      have h10 : ((10 : ℚ) ^ d) ≠ 0 := by positivity
      field_simp
      ring
    · rw [if_neg h]

/-- When the canonical form keeps fractional digits, its mantissa is not
divisible by 10. -/
theorem stripZeros_not_dvd (d : ℕ) : ∀ m : ℤ,
    (stripZeros m d).decimals ≠ 0 → ¬ ((10 : ℤ) ∣ (stripZeros m d).mantissa) := by
  induction d with
  | zero => intro m hne; exact absurd rfl hne
  | succ d ih =>
    intro m hne
    unfold stripZeros at hne ⊢
    by_cases h : m % 10 = 0
    · rw [if_pos h] at hne ⊢
      exact ih _ hne
    · rw [if_neg h] at hne ⊢
      intro hdvd
      exact h (Int.emod_eq_zero_of_dvd hdvd)

/-- `stripTensAux` fixes an integer whose last digit is non-zero. -/
theorem stripTensAux_fixed (f : ℕ) (m : ℤ) (h : m % 10 ≠ 0) :
    stripTensAux f m = m := by
  cases f with
  | zero => rfl
  | succ f =>
    unfold stripTensAux
    rw [if_neg]
    rintro ⟨h1, _⟩
    exact h h1

/-- An integer-valued literal strips down to zero fractional digits. -/
theorem stripZeros_decimals_of_den_one (m : ℤ) (d : ℕ)
    (h : (NumLit.toRat ⟨m, d⟩).den = 1) : (stripZeros m d).decimals = 0 := by
  by_contra hne
  have hnd := stripZeros_not_dvd d m hne
  have hval := stripZeros_toRat d m
  have hden : ((stripZeros m d).toRat).den = 1 := by rw [hval]; exact h
  have hform : (stripZeros m d).toRat =
      ((stripZeros m d).mantissa : ℚ) /
        (((10 : ℤ) ^ (stripZeros m d).decimals : ℤ) : ℚ) := by
    unfold NumLit.toRat
    push_cast
    ring
  rw [hform, Rat.den_div_intCast_eq_one_iff _ _ (by positivity)] at hden
  exact hnd (dvd_trans (dvd_pow_self 10 hne) hden)

/-- A literal denoting an integer of magnitude below `10^21` renders
without a decimal point (fixed notation, no fractional digits). -/
theorem goFmtNoDot_of_int (n : NumLit)
    (hden : (n.toRat).den = 1) (hlt : |n.toRat| < 10 ^ 21) :
    goFmtNoDot n = true := by
  unfold goFmtNoDot noDotCanonical
  have hdec : (stripZeros n.mantissa n.decimals).decimals = 0 :=
    stripZeros_decimals_of_den_one n.mantissa n.decimals hden
  have hval : (stripZeros n.mantissa n.decimals).toRat = n.toRat :=
    stripZeros_toRat n.decimals n.mantissa
  by_cases hm : (stripZeros n.mantissa n.decimals).mantissa = 0
  · rw [if_pos hm]
  · rw [if_neg hm]
    have hcm : (stripZeros n.mantissa n.decimals).toRat =
        ((stripZeros n.mantissa n.decimals).mantissa : ℚ) := by
      unfold NumLit.toRat
      rw [hdec]
      norm_num
    have habs : ((stripZeros n.mantissa n.decimals).mantissa.natAbs : ℚ) <
        10 ^ 21 := by
      rw [Int.cast_natAbs, Int.cast_abs, ← hcm, hval]
      exact hlt
    have habsN : (stripZeros n.mantissa n.decimals).mantissa.natAbs <
        10 ^ 21 := by exact_mod_cast habs
    have hcond : 10 ^ (stripZeros n.mantissa n.decimals).decimals ≤
        (stripZeros n.mantissa n.decimals).mantissa.natAbs * 10 ^ 4 ∧
        (stripZeros n.mantissa n.decimals).mantissa.natAbs <
          10 ^ ((stripZeros n.mantissa n.decimals).decimals + 21) := by
      constructor
      · rw [hdec]
        have h1 : 1 ≤ (stripZeros n.mantissa n.decimals).mantissa.natAbs :=
          Nat.one_le_iff_ne_zero.mpr (Int.natAbs_ne_zero.mpr hm)
        calc 10 ^ (0 : ℕ) = 1 := by norm_num
        _ ≤ (stripZeros n.mantissa n.decimals).mantissa.natAbs * 10 ^ 4 := by
          nlinarith
      · rw [hdec]
        simpa using habsN
    rw [if_pos hcond]
    exact decide_eq_true hdec

/-- A literal denoting a non-integer of magnitude at least `10^-4`
renders with a decimal point (fixed notation with fractional digits, or
exponent notation with a multi-digit significand). -/
theorem goFmtNoDot_of_frac (n : NumLit)
    (hden : (n.toRat).den ≠ 1) (hlow : 1 / 10 ^ 4 ≤ |n.toRat|) :
    goFmtNoDot n = false := by
  unfold goFmtNoDot noDotCanonical
  have hval : (stripZeros n.mantissa n.decimals).toRat = n.toRat :=
    stripZeros_toRat n.decimals n.mantissa
  have hdec : (stripZeros n.mantissa n.decimals).decimals ≠ 0 := by
    intro h0
    apply hden
    rw [← hval]
    unfold NumLit.toRat
    rw [h0]
    norm_num
  have hnd := stripZeros_not_dvd n.decimals n.mantissa hdec
  have hm : (stripZeros n.mantissa n.decimals).mantissa ≠ 0 := by
    intro h0
    apply hden
    rw [← hval]
    unfold NumLit.toRat
    rw [h0]
    norm_num
  rw [if_neg hm]
  have habs : |(stripZeros n.mantissa n.decimals).toRat| =
      ((stripZeros n.mantissa n.decimals).mantissa.natAbs : ℚ) /
        10 ^ (stripZeros n.mantissa n.decimals).decimals := by
    unfold NumLit.toRat
    rw [abs_div, abs_of_pos
      (show (0 : ℚ) < 10 ^ (stripZeros n.mantissa n.decimals).decimals by
        positivity), Int.cast_natAbs, Int.cast_abs]
  have hlowN : 10 ^ (stripZeros n.mantissa n.decimals).decimals ≤
      (stripZeros n.mantissa n.decimals).mantissa.natAbs * 10 ^ 4 := by
    have h2 : (1 : ℚ) / 10 ^ 4 ≤
        ((stripZeros n.mantissa n.decimals).mantissa.natAbs : ℚ) /
          10 ^ (stripZeros n.mantissa n.decimals).decimals := by
      rw [← habs, hval]
      exact hlow
    rw [div_le_div_iff₀ (by positivity) (by positivity)] at h2
    have h3 : ((10 ^ (stripZeros n.mantissa n.decimals).decimals : ℕ) : ℚ) ≤
        (((stripZeros n.mantissa n.decimals).mantissa.natAbs * 10 ^ 4 : ℕ) : ℚ) := by
      push_cast
      linarith
    exact_mod_cast h3
  by_cases hup : (stripZeros n.mantissa n.decimals).mantissa.natAbs <
      10 ^ ((stripZeros n.mantissa n.decimals).decimals + 21)
  · rw [if_pos ⟨hlowN, hup⟩]
    simp [hdec]
  · rw [if_neg (by rintro ⟨_, hc⟩; exact hup hc)]
    have hstrip : stripTensAux 400 (stripZeros n.mantissa n.decimals).mantissa =
        (stripZeros n.mantissa n.decimals).mantissa := by
      apply stripTensAux_fixed
      intro h0
      exact hnd (Int.dvd_of_emod_eq_zero h0)
    rw [hstrip]
    push_neg at hup
    have hbig : ¬ ((stripZeros n.mantissa n.decimals).mantissa.natAbs < 10) := by
      intro hlt10
      have h10 : (10 : ℕ) ≤
          10 ^ ((stripZeros n.mantissa n.decimals).decimals + 21) := by
        calc (10 : ℕ) = 10 ^ 1 := by norm_num
        _ ≤ 10 ^ ((stripZeros n.mantissa n.decimals).decimals + 21) :=
          Nat.pow_le_pow_right (by norm_num) (by omega)
      omega
    simp [hbig]

/-- The value of an optional step literal is the value of the literal
with `⟨0, 0⟩` standing in for the empty field. -/
theorem numOr0_getD (o : Option NumLit) :
    numOr0 o = (o.getD ⟨0, 0⟩).toRat := by
  cases o with
  | none =>
    unfold numOr0 NumLit.toRat
    norm_num
  | some n => rfl

end IotUplinkGen

/-- C4 counterexample: with step literal `0.00001` — a step with a
decimal part — Go prints the step value as `1e-05`, which contains no
decimal point, so `simulateAccumulate` takes the integer branch: the
first call returns `%d` of `int64(0 + 0.00001)`, the string `"0"`, not
a fixed 2-decimal string.  The claimed "fixed 2-decimal formatted
otherwise" is false here. -/
theorem C4_accumulate_counterexample :
    IotUplinkGen.numOr0 (some ⟨1, 5⟩) = 1 / 100000 ∧
    (IotUplinkGen.numOr0 (some ⟨1, 5⟩)).den ≠ 1 ∧
    (IotUplinkGen.simulateAccumulate "total"
      { method := "accumulate", step := some ⟨1, 5⟩ } (fun _ => none)).1 =
      ⟨0, 0⟩ := by
  have hq : IotUplinkGen.numOr0 (some (⟨1, 5⟩ : IotUplinkGen.NumLit)) =
      1 / 100000 := by
    norm_num [IotUplinkGen.numOr0, IotUplinkGen.NumLit.toRat]
  refine ⟨hq, ?_, ?_⟩
  · rw [hq]
    intro hcontra
    have hcast : ((1 : ℚ) / 100000) = ((1 : ℤ) : ℚ) / ((100000 : ℤ) : ℚ) := by
      norm_num
    rw [hcast, Rat.den_div_intCast_eq_one_iff 1 100000 (by norm_num)] at hcontra
    norm_num at hcontra
  · have hfmt : IotUplinkGen.goFmtNoDot ⟨1, 5⟩ = true := by decide
    have h1 : (IotUplinkGen.simulateAccumulate "total"
        { method := "accumulate", step := some ⟨1, 5⟩ } (fun _ => none)).1 =
        IotUplinkGen.accFormat ⟨1, 5⟩
          ((0 : ℚ) + IotUplinkGen.numOr0 (some ⟨1, 5⟩)) := rfl
    rw [h1]
    unfold IotUplinkGen.accFormat
    rw [if_pos hfmt]
    have h2 : (0 : ℚ) + IotUplinkGen.numOr0 (some (⟨1, 5⟩ : IotUplinkGen.NumLit)) =
        1 / 100000 := by
      rw [hq]
      ring
    rw [h2]
    have h3 : IotUplinkGen.goTrunc ((1 : ℚ) / 100000) = 0 := by
      unfold IotUplinkGen.goTrunc
      rw [if_pos (by norm_num)]
      exact Int.floor_eq_zero_iff.mpr ⟨by norm_num, by norm_num⟩
    rw [h3]

/-- C4 amended: each `simulateAccumulate` call stores previous state +
step (starting from zero when absent) and returns that sum formatted;
for positive step, consecutive calls for the same identifier return
non-decreasing values; after `ResetState` the next call stores zero plus
one step and returns it at the output precision (exactly equal to the
step whenever the step is representable at that precision); and the
output is integer-formatted exactly when Go's default rendering of the
step value contains no decimal point — in particular for integer steps
of magnitude below `1e21`, while a step with a decimal part of magnitude
at least `1e-4` is fixed 2-decimal formatted (a non-integer step such as
`0.00001` renders as `1e-05` and is integer-formatted instead). -/
theorem C4_accumulate_behavior (config : IotUplinkGen.PropertySimConfig)
    (id : String) (st : String → Option ℚ) :
    ((IotUplinkGen.simulateAccumulate id config st).2 id =
      some ((st id).getD 0 + IotUplinkGen.numOr0 config.step)) ∧
    (0 < IotUplinkGen.numOr0 config.step →
      (IotUplinkGen.simulateAccumulate id config st).1.toRat ≤
        (IotUplinkGen.simulateAccumulate id config
          ((IotUplinkGen.simulateAccumulate id config st).2)).1.toRat) ∧
    ((IotUplinkGen.simulateAccumulate id config
        (IotUplinkGen.ResetState id st)).2 id =
      some (IotUplinkGen.numOr0 config.step)) ∧
    (IotUplinkGen.goFmtNoDot (config.step.getD ⟨0, 0⟩) = true →
      (IotUplinkGen.numOr0 config.step).den = 1 →
      (IotUplinkGen.simulateAccumulate id config
        (IotUplinkGen.ResetState id st)).1.toRat =
        IotUplinkGen.numOr0 config.step) ∧
    (IotUplinkGen.goFmtNoDot (config.step.getD ⟨0, 0⟩) = false →
      (IotUplinkGen.numOr0 config.step * 100).den = 1 →
      (IotUplinkGen.simulateAccumulate id config
        (IotUplinkGen.ResetState id st)).1.toRat =
        IotUplinkGen.numOr0 config.step) ∧
    ((IotUplinkGen.simulateAccumulate id config st).1.decimals =
      if IotUplinkGen.goFmtNoDot (config.step.getD ⟨0, 0⟩) = true then 0
      else 2) ∧
    ((IotUplinkGen.numOr0 config.step).den = 1 →
      |IotUplinkGen.numOr0 config.step| < 10 ^ 21 →
      (IotUplinkGen.simulateAccumulate id config st).1.decimals = 0) ∧
    ((IotUplinkGen.numOr0 config.step).den ≠ 1 →
      1 / 10 ^ 4 ≤ |IotUplinkGen.numOr0 config.step| →
      (IotUplinkGen.simulateAccumulate id config st).1.decimals = 2) := by
  have hdec : ∀ states : String → Option ℚ,
      (IotUplinkGen.simulateAccumulate id config states).1.decimals =
      if IotUplinkGen.goFmtNoDot (config.step.getD ⟨0, 0⟩) = true then 0
      else 2 := by
    intro states
    simp only [IotUplinkGen.simulateAccumulate, IotUplinkGen.accFormat]
    by_cases hfmt : IotUplinkGen.goFmtNoDot (config.step.getD ⟨0, 0⟩) = true
    · rw [if_pos hfmt, if_pos hfmt]
    · rw [if_neg hfmt, if_neg hfmt]
  refine ⟨?_, ?_, ?_, ?_, ?_, hdec st, ?_, ?_⟩
  · simp [IotUplinkGen.simulateAccumulate]
  · intro hpos
    have hfst : (IotUplinkGen.simulateAccumulate id config st).1 =
        IotUplinkGen.accFormat (config.step.getD ⟨0, 0⟩)
          ((st id).getD 0 + IotUplinkGen.numOr0 config.step) := rfl
    have hsnd : (IotUplinkGen.simulateAccumulate id config
        ((IotUplinkGen.simulateAccumulate id config st).2)).1 =
        IotUplinkGen.accFormat (config.step.getD ⟨0, 0⟩)
          ((st id).getD 0 + IotUplinkGen.numOr0 config.step +
            IotUplinkGen.numOr0 config.step) := by
      simp [IotUplinkGen.simulateAccumulate]
    rw [hfst, hsnd]
    apply IotUplinkGen.accFormat_toRat_mono
    linarith
  · simp [IotUplinkGen.simulateAccumulate, IotUplinkGen.ResetState]
  · intro hfmt hden
    have hred : (IotUplinkGen.simulateAccumulate id config
        (IotUplinkGen.ResetState id st)).1 =
        IotUplinkGen.accFormat (config.step.getD ⟨0, 0⟩)
          (IotUplinkGen.numOr0 config.step) := by
      simp [IotUplinkGen.simulateAccumulate, IotUplinkGen.ResetState]
    rw [hred]
    unfold IotUplinkGen.accFormat
    rw [if_pos hfmt]
    unfold IotUplinkGen.NumLit.toRat
    simp only [pow_zero, div_one]
    rw [← Rat.coe_int_num_of_den_eq_one hden, IotUplinkGen.goTrunc_intCast]
  · intro hfmt hrep
    have hred : (IotUplinkGen.simulateAccumulate id config
        (IotUplinkGen.ResetState id st)).1 =
        IotUplinkGen.accFormat (config.step.getD ⟨0, 0⟩)
          (IotUplinkGen.numOr0 config.step) := by
      simp [IotUplinkGen.simulateAccumulate, IotUplinkGen.ResetState]
    rw [hred]
    unfold IotUplinkGen.accFormat
    rw [if_neg (by simp [hfmt])]
    unfold IotUplinkGen.NumLit.toRat
    rw [div_eq_iff (by norm_num : ((10 : ℚ) ^ (2 : ℕ)) ≠ 0)]
    have h100 : ((10 : ℚ) ^ (2 : ℕ)) = 100 := by norm_num
    rw [h100]
    rw [← Rat.coe_int_num_of_den_eq_one hrep, IotUplinkGen.rndHalfEven_intCast]
  · intro hden hlt
    have hfmt := IotUplinkGen.goFmtNoDot_of_int (config.step.getD ⟨0, 0⟩)
      (by rw [← IotUplinkGen.numOr0_getD]; exact hden)
      (by rw [← IotUplinkGen.numOr0_getD]; exact hlt)
    rw [hdec st, if_pos hfmt]
  · intro hden hlow
    have hfmt := IotUplinkGen.goFmtNoDot_of_frac (config.step.getD ⟨0, 0⟩)
      (by rw [← IotUplinkGen.numOr0_getD]; exact hden)
      (by rw [← IotUplinkGen.numOr0_getD]; exact hlow)
    rw [hdec st, if_neg (by simp [hfmt])]

/-- Witness for C4 at step `2.5`, identifier `"total"`, empty state:
the step is positive, its rendering `"2.5"` has a decimal point, `2.5`
is exactly representable at 2 decimals, the first call after a reset
returns `2.5`, and the output is 2-decimal formatted. -/
theorem C4_accumulate_witness :
    (0 : ℚ) < IotUplinkGen.numOr0 (some ⟨25, 1⟩) ∧
    IotUplinkGen.goFmtNoDot ⟨25, 1⟩ = false ∧
    (IotUplinkGen.numOr0 (some ⟨25, 1⟩) * 100).den = 1 ∧
    (IotUplinkGen.simulateAccumulate "total"
      { method := "accumulate", step := some ⟨25, 1⟩ }
      (IotUplinkGen.ResetState "total" (fun _ => none))).1.toRat =
      IotUplinkGen.numOr0 (some ⟨25, 1⟩) ∧
    (IotUplinkGen.simulateAccumulate "total"
      { method := "accumulate", step := some ⟨25, 1⟩ }
      (fun _ => none)).1.decimals = 2 := by
  have hfmt : IotUplinkGen.goFmtNoDot ⟨25, 1⟩ = false := by decide
  have hq : IotUplinkGen.numOr0 (some (⟨25, 1⟩ : IotUplinkGen.NumLit)) =
      5 / 2 := by
    norm_num [IotUplinkGen.numOr0, IotUplinkGen.NumLit.toRat]
  have hden : (IotUplinkGen.numOr0 (some (⟨25, 1⟩ : IotUplinkGen.NumLit))).den ≠
      1 := by
    rw [hq]
    intro hcontra
    have hcast : ((5 : ℚ) / 2) = ((5 : ℤ) : ℚ) / ((2 : ℤ) : ℚ) := by norm_num
    rw [hcast, Rat.den_div_intCast_eq_one_iff 5 2 (by norm_num)] at hcontra
    norm_num at hcontra
  have hrep : (IotUplinkGen.numOr0 (some (⟨25, 1⟩ : IotUplinkGen.NumLit)) *
      100).den = 1 := by
    have h : IotUplinkGen.numOr0 (some (⟨25, 1⟩ : IotUplinkGen.NumLit)) * 100 =
        (250 : ℚ) := by
      rw [hq]
      norm_num
    rw [h, Rat.den_ofNat]
  refine ⟨by rw [hq]; norm_num, hfmt, hrep, ?_, ?_⟩
  · exact (C4_accumulate_behavior { method := "accumulate", step := some ⟨25, 1⟩ }
      "total" (fun _ => none)).2.2.2.2.1 hfmt hrep
  · exact (C4_accumulate_behavior { method := "accumulate", step := some ⟨25, 1⟩ }
      "total" (fun _ => none)).2.2.2.2.2.2.2 hden
      (by rw [hq, abs_of_pos (by norm_num : (0 : ℚ) < 5 / 2)]; norm_num)

namespace IotUplinkGen

/-! ## Characterization of the operator-selection loop -/

/-- Soundness of `findOperator`: a successful result names an operator
whose split has exactly two parts, and every operator tried before it in
the list does not split the condition into exactly two parts. -/
theorem findOperator_spec (cond : List Char) :
    ∀ (l : List String) (op : String) (lft rgt : List Char),
    findOperator cond l = some (op, lft, rgt) →
    splitOnChars cond op.toList = [lft, rgt] ∧
    ∃ pre post, l = pre ++ op :: post ∧
      ∀ op' ∈ pre, (splitOnChars cond op'.toList).length ≠ 2 := by
  intro l
  induction l with
  | nil => intro op lft rgt h; simp [findOperator] at h
  | cons hd tl ih =>
    intro op lft rgt h
    unfold findOperator at h
    split at h
    · rename_i l r heq
      simp only [Option.some.injEq, Prod.mk.injEq] at h
      obtain ⟨rfl, rfl, rfl⟩ := h
      exact ⟨heq, [], tl, rfl, by simp⟩
    · rename_i hne
      obtain ⟨h1, pre, post, h2, h3⟩ := ih op lft rgt h
      refine ⟨h1, hd :: pre, post, by rw [h2]; rfl, ?_⟩
      intro op' hop'
      rcases List.mem_cons.mp hop' with rfl | hmem
      · intro hlen2
        obtain ⟨a, b, hab⟩ := List.length_eq_two.mp hlen2
        exact hne a b hab
      · exact h3 op' hmem

end IotUplinkGen

/-- C5 counterexample: for the condition `"a>=1 b>=2 == c"` the first
operator substring found in the fixed order is `">="` (it occurs in the
raw string), yet the parser selects `"=="` — because `">="` occurs twice
and `strings.Split` then yields three parts, failing the
`len(parts) == 2` check, so the loop moves on.  Hence "the first
operator substring found wins" is false as stated. -/
theorem C5_counterexample :
    IotUplinkGen.specFirstFoundOperator "a>=1 b>=2 == c" = some ">=" ∧
    (IotUplinkGen.parseCondition "a>=1 b>=2 == c").map (fun t => t.2.1) =
      some "==" ∧
    (">=" : String) ≠ "==" :=
  ⟨rfl, rfl, by decide⟩

/-- C5 amended: a successful parse of a trigger condition selects the
first operator in the fixed order `>=`, `<=`, `==`, `!=`, `>`, `<` that
splits the whitespace-trimmed condition into exactly two parts (an
operator occurring more than once — three or more parts — is skipped in
favor of later operators), the property name and literal are the
whitespace-trimmed halves and must be non-empty; and when both the
property's current value and the literal parse as numbers the comparison
is numeric with `==`/`!=` using an epsilon of `1e-9`, otherwise the
formatted property value is compared with the quote-stripped literal
and only `==`/`!=` can succeed. -/
theorem C5_condition_semantics :
    (∀ (condition : String) (prop op value : String),
      IotUplinkGen.parseCondition condition = some (prop, op, value) →
      ∃ pre post lft rgt,
        IotUplinkGen.operatorList = pre ++ op :: post ∧
        (∀ op' ∈ pre,
          (IotUplinkGen.splitOnChars (IotUplinkGen.trimChars condition.toList)
            op'.toList).length ≠ 2) ∧
        IotUplinkGen.splitOnChars (IotUplinkGen.trimChars condition.toList)
          op.toList = [lft, rgt] ∧
        prop = String.mk (IotUplinkGen.trimChars lft) ∧
        value = String.mk (IotUplinkGen.trimChars rgt) ∧
        prop ≠ "" ∧ value ≠ "") ∧
    (∀ (a : IotUplinkGen.SimValue) (v : String) (x y : ℚ) (op : String),
      IotUplinkGen.convertToFloat a = some x →
      IotUplinkGen.parseFloat v = some y →
      IotUplinkGen.compareValues a op v = IotUplinkGen.compareFloat x op y) ∧
    (∀ (x y : ℚ),
      IotUplinkGen.compareFloat x ">=" y = decide (y ≤ x) ∧
      IotUplinkGen.compareFloat x "<=" y = decide (x ≤ y) ∧
      IotUplinkGen.compareFloat x ">" y = decide (y < x) ∧
      IotUplinkGen.compareFloat x "<" y = decide (x < y) ∧
      IotUplinkGen.compareFloat x "==" y = decide (|x - y| < 1 / 10 ^ 9) ∧
      IotUplinkGen.compareFloat x "!=" y = decide (1 / 10 ^ 9 ≤ |x - y|)) ∧
    (∀ (a : IotUplinkGen.SimValue) (v : String) (op : String),
      (IotUplinkGen.convertToFloat a = none ∨ IotUplinkGen.parseFloat v = none) →
      (IotUplinkGen.compareValues a "==" v =
        (IotUplinkGen.formatV a ==
          String.mk (IotUplinkGen.trimQuoteChars v.toList))) ∧
      (IotUplinkGen.compareValues a "!=" v =
        (IotUplinkGen.formatV a !=
          String.mk (IotUplinkGen.trimQuoteChars v.toList))) ∧
      (op ≠ "==" → op ≠ "!=" → IotUplinkGen.compareValues a op v = false)) := by
  refine ⟨?_, ?_, ?_, ?_⟩
  · intro condition prop op value h
    unfold IotUplinkGen.parseCondition at h
    dsimp only at h
    split at h
    · exact absurd h (by simp)
    · split at h
      · exact absurd h (by simp)
      · rename_i op' lft rgt hfo
        split at h
        · exact absurd h (by simp)
        · rename_i hempty
          simp only [Option.some.injEq, Prod.mk.injEq] at h
          obtain ⟨rfl, rfl, rfl⟩ := h
          obtain ⟨hsplit, pre, post, hdecomp, hpre⟩ :=
            IotUplinkGen.findOperator_spec _ _ _ _ _ hfo
          rw [Bool.or_eq_true, not_or] at hempty
          obtain ⟨hl, hr⟩ := hempty
          refine ⟨pre, post, lft, rgt, hdecomp, hpre, hsplit, rfl, rfl, ?_, ?_⟩
          · intro hcontra
            apply hl
            cases htl : IotUplinkGen.trimChars lft with
            | nil => rfl
            | cons c cs =>
              rw [htl] at hcontra
              exact absurd (congrArg String.data hcontra) (by simp)
          · intro hcontra
            apply hr
            cases htr : IotUplinkGen.trimChars rgt with
            | nil => rfl
            | cons c cs =>
              rw [htr] at hcontra
              exact absurd (congrArg String.data hcontra) (by simp)
  · intro a v x y op hx hy
    unfold IotUplinkGen.compareValues
    rw [hx, hy]
  · intro x y
    refine ⟨rfl, ?_, ?_, ?_, ?_, ?_⟩ <;> rfl
  · intro a v op hnone
    unfold IotUplinkGen.compareValues
    rcases hnone with hna | hnv
    · rw [hna]
      exact ⟨rfl, rfl, fun h1 h2 => by rw [if_neg h1, if_neg h2]⟩
    · rw [hnv]
      cases hca : IotUplinkGen.convertToFloat a <;>
        exact ⟨rfl, rfl, fun h1 h2 => by rw [if_neg h1, if_neg h2]⟩

/-- Witness for C5 at the condition `"temperature >= 85"` (which parses
into `temperature`, `>=`, `85`) and at the numeric comparison of the
string value `"90"` against the literal `"85"`. -/
theorem C5_condition_semantics_witness :
    (∃ pre post lft rgt,
      IotUplinkGen.operatorList = pre ++ (">=" : String) :: post ∧
      (∀ op' ∈ pre,
        (IotUplinkGen.splitOnChars
          (IotUplinkGen.trimChars ("temperature >= 85" : String).toList)
          op'.toList).length ≠ 2) ∧
      IotUplinkGen.splitOnChars
        (IotUplinkGen.trimChars ("temperature >= 85" : String).toList)
        (">=" : String).toList = [lft, rgt] ∧
      ("temperature" : String) = String.mk (IotUplinkGen.trimChars lft) ∧
      ("85" : String) = String.mk (IotUplinkGen.trimChars rgt) ∧
      ("temperature" : String) ≠ "" ∧ ("85" : String) ≠ "") ∧
    IotUplinkGen.compareValues (IotUplinkGen.SimValue.str "90") ">=" "85" =
      IotUplinkGen.compareFloat 90 ">=" 85 := by
  have hconv : IotUplinkGen.convertToFloat (IotUplinkGen.SimValue.str "90") =
      some 90 := by
    show IotUplinkGen.parseFloat "90" = some 90
    unfold IotUplinkGen.parseFloat
    rw [show IotUplinkGen.parseFloatLit "90" =
      some ⟨90, 0⟩ from rfl]
    norm_num [IotUplinkGen.NumLit.toRat]
  have hpf : IotUplinkGen.parseFloat "85" = some 85 := by
    unfold IotUplinkGen.parseFloat
    rw [show IotUplinkGen.parseFloatLit "85" =
      some ⟨85, 0⟩ from rfl]
    norm_num [IotUplinkGen.NumLit.toRat]
  exact ⟨C5_condition_semantics.1 "temperature >= 85" "temperature" ">=" "85" rfl,
    C5_condition_semantics.2.1 (IotUplinkGen.SimValue.str "90") "85" 90 85 ">="
      hconv hpf⟩

/-- C6: `CheckEventTrigger` never fires within the cooldown window — if
the elapsed time since the recorded last trigger is below
`cooldownSeconds` the check returns not-fired with no payload and an
unchanged map, regardless of the property values; a successful firing
records `now` as the event's new last-trigger timestamp; and once the
cooldown has elapsed, a reading satisfying the trigger condition fires
again. -/
theorem C6_cooldown_gate (config : IotUplinkGen.EventSimConfig)
    (propertyData : List (String × IotUplinkGen.SimValue))
    (st : String → Option ℤ) (now : ℤ) :
    (∀ t, st config.identifier = some t → now - t < config.cooldown →
      IotUplinkGen.CheckEventTrigger config propertyData st now =
        (false, none, st)) ∧
    ((IotUplinkGen.CheckEventTrigger config propertyData st now).1 = true →
      (IotUplinkGen.CheckEventTrigger config propertyData st now).2.2
        config.identifier = some now) ∧
    (∀ t ed, st config.identifier = some t → config.cooldown ≤ now - t →
      config.triggerCondition ≠ "" →
      IotUplinkGen.evaluateCondition config.triggerCondition propertyData =
        (true, some ed) →
      (IotUplinkGen.CheckEventTrigger config propertyData st now).1 = true) := by
  have hres : (IotUplinkGen.CheckEventTrigger config propertyData st now =
      (false, none, st)) ∨
      (∃ ed, IotUplinkGen.CheckEventTrigger config propertyData st now =
        (true, some ⟨config.identifier, ed, now⟩,
          fun k => if k = config.identifier then some now else st k)) := by
    unfold IotUplinkGen.CheckEventTrigger
    split
    · exact Or.inl rfl
    · split
      · exact Or.inl rfl
      · split
        · rename_i eventData heq
          exact Or.inr ⟨eventData, rfl⟩
        · exact Or.inl rfl
  refine ⟨?_, ?_, ?_⟩
  · intro t ht hlt
    unfold IotUplinkGen.CheckEventTrigger
    have hcan : IotUplinkGen.canTriggerEvent config st now = false := by
      unfold IotUplinkGen.canTriggerEvent
      rw [ht]
      exact decide_eq_false (by omega)
    rw [hcan]
    rfl
  · intro hfired
    rcases hres with heq | ⟨ed, heq⟩
    · rw [heq] at hfired
      exact absurd hfired (by simp)
    · rw [heq]
      simp
  · intro t ed ht hge hcond heval
    unfold IotUplinkGen.CheckEventTrigger
    have hcan : IotUplinkGen.canTriggerEvent config st now = true := by
      unfold IotUplinkGen.canTriggerEvent
      rw [ht]
      exact decide_eq_true hge
    rw [hcan, if_neg (by simp), if_neg hcond, heval]

/-- Witness for C6 at the event `overheat` (condition
`"temperature >= 85"`, cooldown 300 s) last fired at second 1000: at
second 1100 (within cooldown) the check returns not-fired with the map
unchanged even though `temperature = 90` qualifies; at second 1301
(cooldown elapsed) the same reading fires. -/
theorem C6_cooldown_gate_witness :
    IotUplinkGen.CheckEventTrigger ⟨"overheat", "temperature >= 85", 300⟩
      [("temperature", IotUplinkGen.SimValue.str "90")]
      (fun k => if k = "overheat" then some (1000 : ℤ) else none) 1100 =
      (false, none, fun k => if k = "overheat" then some (1000 : ℤ) else none) ∧
    (IotUplinkGen.CheckEventTrigger ⟨"overheat", "temperature >= 85", 300⟩
      [("temperature", IotUplinkGen.SimValue.str "90")]
      (fun k => if k = "overheat" then some (1000 : ℤ) else none) 1301).1 =
      true := by
  have hconv : IotUplinkGen.convertToFloat (IotUplinkGen.SimValue.str "90") =
      some 90 := by
    show IotUplinkGen.parseFloat "90" = some 90
    unfold IotUplinkGen.parseFloat
    rw [show IotUplinkGen.parseFloatLit "90" = some ⟨90, 0⟩ from rfl]
    norm_num [IotUplinkGen.NumLit.toRat]
  have hpf : IotUplinkGen.parseFloat "85" = some 85 := by
    unfold IotUplinkGen.parseFloat
    rw [show IotUplinkGen.parseFloatLit "85" = some ⟨85, 0⟩ from rfl]
    norm_num [IotUplinkGen.NumLit.toRat]
  have hcf : IotUplinkGen.compareFloat 90 ">=" 85 = true := by
    unfold IotUplinkGen.compareFloat
    rw [if_neg (by decide), if_pos rfl]
    exact decide_eq_true (by norm_num)
  have hcv : IotUplinkGen.compareValues (IotUplinkGen.SimValue.str "90")
      ">=" "85" = true := by
    unfold IotUplinkGen.compareValues
    rw [hconv, hpf]
    exact hcf
  have heval : IotUplinkGen.evaluateCondition "temperature >= 85"
      [("temperature", IotUplinkGen.SimValue.str "90")] =
      (true, some [("temperature", IotUplinkGen.SimValue.str "90")]) := by
    have h1 : IotUplinkGen.parseCondition "temperature >= 85" =
        some ("temperature", ">=", "85") := rfl
    have h2 : [("temperature", IotUplinkGen.SimValue.str "90")].lookup
        "temperature" = some (IotUplinkGen.SimValue.str "90") := rfl
    simp only [IotUplinkGen.evaluateCondition, h1, h2, hcv, if_true]
  exact ⟨(C6_cooldown_gate ⟨"overheat", "temperature >= 85", 300⟩
      [("temperature", IotUplinkGen.SimValue.str "90")]
      (fun k => if k = "overheat" then some (1000 : ℤ) else none) 1100).1
      1000 rfl (by norm_num),
    (C6_cooldown_gate ⟨"overheat", "temperature >= 85", 300⟩
      [("temperature", IotUplinkGen.SimValue.str "90")]
      (fun k => if k = "overheat" then some (1000 : ℤ) else none) 1301).2.2
      1000 [("temperature", IotUplinkGen.SimValue.str "90")] rfl
      (by norm_num) (by decide) heval⟩

/-- C10: an event config whose trigger condition is the empty string
never fires — `CheckEventTrigger` returns not-fired with no payload and
leaves the last-trigger map unchanged, for every property-value map and
every time — and every event entry produced by `GenerateEmptyRule`
carries an empty trigger condition (with a 60 s default cooldown), so
such events never fire until configured. -/
theorem C10_empty_condition_never_fires
    (config : IotUplinkGen.EventSimConfig)
    (propertyData : List (String × IotUplinkGen.SimValue))
    (st : String → Option ℤ) (now : ℤ)
    (productName : String) (tslModel : IotUplinkGen.TSLModel) :
    (config.triggerCondition = "" →
      IotUplinkGen.CheckEventTrigger config propertyData st now =
        (false, none, st)) ∧
    (∀ ev ∈ (IotUplinkGen.GenerateEmptyRule productName tslModel).events,
      ev.triggerCondition = "" ∧ ev.cooldown = 60) := by
  constructor
  · intro hcond
    unfold IotUplinkGen.CheckEventTrigger
    rw [hcond]
    split
    all_goals simp
  · intro ev hev
    simp only [IotUplinkGen.GenerateEmptyRule, List.mem_map] at hev
    obtain ⟨e, _, rfl⟩ := hev
    exact ⟨rfl, rfl⟩

/-- Witness for C10: the empty-condition event `overheat` does not fire
on the reading `temperature = 90`, and the empty rule generated for a
model declaring that event contains exactly the empty-condition entry. -/
theorem C10_empty_condition_witness :
    IotUplinkGen.CheckEventTrigger ⟨"overheat", "", 300⟩
      [("temperature", IotUplinkGen.SimValue.str "90")] (fun _ => none) 7 =
      (false, none, fun _ => none) ∧
    (⟨"overheat", "", 60⟩ : IotUplinkGen.EventSimConfig).triggerCondition =
      "" ∧
    (⟨"overheat", "", 60⟩ : IotUplinkGen.EventSimConfig).cooldown = 60 :=
  ⟨(C10_empty_condition_never_fires ⟨"overheat", "", 300⟩
      [("temperature", IotUplinkGen.SimValue.str "90")] (fun _ => none) 7
      "boiler" { events := [{ identifier := "overheat" }] }).1 rfl,
    (C10_empty_condition_never_fires ⟨"overheat", "", 300⟩
      [("temperature", IotUplinkGen.SimValue.str "90")] (fun _ => none) 7
      "boiler" { events := [{ identifier := "overheat" }] }).2
      ⟨"overheat", "", 60⟩ (by decide)⟩

/-- C1 counterexample: the validator accepts a model that declares the
event `e1` paired with a rule set containing no event entry at all, even
though the claimed bijection fails there — the event (and service)
checks run in one direction only. -/
theorem C1_consistency_counterexample :
    IotUplinkGen.validateTSLRuleConsistency
      { events := [{ identifier := "e1" }] } {} = none ∧
    IotUplinkGen.specIdentifierBijection
      { events := [{ identifier := "e1" }] } {} = false :=
  ⟨rfl, rfl⟩

/-- C1 amended: `validateTSLRuleConsistency` returns ok if and only if
every declared property has a rule entry AND every rule entry names a
declared property (two-directional for properties), every event entry in
the rule names a declared event, and every service entry in the rule
names a declared action — one-directional for events and services: a
declared event or service with no rule entry is NOT rejected. -/
theorem C1_consistency_characterization (m : IotUplinkGen.TSLModel)
    (rule : IotUplinkGen.SimulationRule) :
    IotUplinkGen.validateTSLRuleConsistency m rule = none ↔
    ((∀ p ∈ m.properties,
        ∃ c, rule.simulationConfig.lookup p.identifier = some c) ∧
     (∀ kv ∈ rule.simulationConfig, ∃ p ∈ m.properties, p.identifier = kv.1) ∧
     (∀ ec ∈ rule.events, ∃ e ∈ m.events, e.identifier = ec.identifier) ∧
     (∀ kv ∈ rule.services, ∃ a ∈ m.actions, a.identifier = kv.1)) := by
  unfold IotUplinkGen.validateTSLRuleConsistency
  constructor
  · intro h
    cases h1 : m.properties.find?
        (fun prop => (rule.simulationConfig.lookup prop.identifier).isNone) with
    | some p => rw [h1] at h; exact absurd h (by simp)
    | none =>
    rw [h1] at h
    cases h2 : rule.simulationConfig.find?
        (fun kv => !(m.properties.any (fun p => p.identifier == kv.1))) with
    | some kv => rw [h2] at h; exact absurd h (by simp)
    | none =>
    rw [h2] at h
    cases h3 : rule.events.find?
        (fun ec => !(m.events.any (fun e => e.identifier == ec.identifier))) with
    | some ec => rw [h3] at h; exact absurd h (by simp)
    | none =>
    rw [h3] at h
    cases h4 : rule.services.find?
        (fun kv => !(m.actions.any (fun a => a.identifier == kv.1))) with
    | some kv => rw [h4] at h; exact absurd h (by simp)
    | none =>
    rw [List.find?_eq_none] at h1 h2 h3 h4
    refine ⟨?_, ?_, ?_, ?_⟩
    · intro p hp
      have := h1 p hp
      simp only [Option.isNone_iff_eq_none] at this
      cases hlk : rule.simulationConfig.lookup p.identifier with
      | none => exact absurd (by simp [hlk]) this
      | some c => exact ⟨c, rfl⟩
    · intro kv hkv
      have := h2 kv hkv
      simp only [Bool.not_eq_eq_eq_not, Bool.not_true, Bool.not_eq_false,
        List.any_eq_true] at this
      obtain ⟨p, hp, hpe⟩ := this
      exact ⟨p, hp, beq_iff_eq.mp hpe⟩
    · intro ec hec
      have := h3 ec hec
      simp only [Bool.not_eq_eq_eq_not, Bool.not_true, Bool.not_eq_false,
        List.any_eq_true] at this
      obtain ⟨e, he, hee⟩ := this
      exact ⟨e, he, beq_iff_eq.mp hee⟩
    · intro kv hkv
      have := h4 kv hkv
      simp only [Bool.not_eq_eq_eq_not, Bool.not_true, Bool.not_eq_false,
        List.any_eq_true] at this
      obtain ⟨a, ha, hae⟩ := this
      exact ⟨a, ha, beq_iff_eq.mp hae⟩
  · rintro ⟨hA, hB, hC, hD⟩
    have h1 : m.properties.find?
        (fun prop => (rule.simulationConfig.lookup prop.identifier).isNone) =
        none := by
      rw [List.find?_eq_none]
      intro p hp
      obtain ⟨c, hc⟩ := hA p hp
      simp [hc]
    have h2 : rule.simulationConfig.find?
        (fun kv => !(m.properties.any (fun p => p.identifier == kv.1))) =
        none := by
      rw [List.find?_eq_none]
      intro kv hkv
      obtain ⟨p, hp, hpe⟩ := hB kv hkv
      simp only [Bool.not_eq_eq_eq_not, Bool.not_true, Bool.not_eq_false,
        List.any_eq_true]
      exact ⟨p, hp, beq_iff_eq.mpr hpe⟩
    have h3 : rule.events.find?
        (fun ec => !(m.events.any (fun e => e.identifier == ec.identifier))) =
        none := by
      rw [List.find?_eq_none]
      intro ec hec
      obtain ⟨e, he, hee⟩ := hC ec hec
      simp only [Bool.not_eq_eq_eq_not, Bool.not_true, Bool.not_eq_false,
        List.any_eq_true]
      exact ⟨e, he, beq_iff_eq.mpr hee⟩
    have h4 : rule.services.find?
        (fun kv => !(m.actions.any (fun a => a.identifier == kv.1))) = none := by
      rw [List.find?_eq_none]
      intro kv hkv
      obtain ⟨a, ha, hae⟩ := hD kv hkv
      simp only [Bool.not_eq_eq_eq_not, Bool.not_true, Bool.not_eq_false,
        List.any_eq_true]
      exact ⟨a, ha, beq_iff_eq.mpr hae⟩
    rw [h1, h2, h3, h4]

/-- Witness for C1 amended at a consistent concrete pair: one declared
property `speed` with one matching rule entry, no events, no services. -/
theorem C1_consistency_witness :
    IotUplinkGen.validateTSLRuleConsistency
      { properties := [{ identifier := "speed" }] }
      { simulationConfig := [("speed", { method := "randomRange" })] } = none :=
  (C1_consistency_characterization
    { properties := [{ identifier := "speed" }] }
    { simulationConfig := [("speed", { method := "randomRange" })] }).mpr
    ⟨by
      intro p hp
      rw [List.mem_singleton] at hp
      subst hp
      exact ⟨_, rfl⟩,
     by
      intro kv hkv
      rw [List.mem_singleton] at hkv
      subst hkv
      exact ⟨_, List.mem_singleton.mpr rfl, rfl⟩,
     by simp, by simp⟩

/-- C7: `SimulateServiceResponse` with strategy `fixed` returns the
first candidate (when any exists); with strategy `random` or
`randomPick` it returns the candidate at the uniformly sampled index
`k mod len`, so every candidate is reachable; and with an unknown
strategy, or an empty candidate list, it returns the default success
response with code 200. -/
theorem C7_service_response (config : IotUplinkGen.ServiceSimConfig) (k : ℕ) :
    (config.responseStrategy = "fixed" →
      ∀ r rest, config.possibleResponses = r :: rest →
        IotUplinkGen.SimulateServiceResponse config k = r) ∧
    ((config.responseStrategy = "random" ∨
        config.responseStrategy = "randomPick") →
      config.possibleResponses ≠ [] →
        config.possibleResponses[k % config.possibleResponses.length]? =
          some (IotUplinkGen.SimulateServiceResponse config k)) ∧
    ((config.responseStrategy ∉ (["fixed", "random", "randomPick"] : List String) ∨
        config.possibleResponses = []) →
      IotUplinkGen.SimulateServiceResponse config k =
        IotUplinkGen.defaultServiceResponse ∧
      (IotUplinkGen.SimulateServiceResponse config k).code = 200) := by
  refine ⟨?_, ?_, ?_⟩
  · intro hfix r rest hlist
    unfold IotUplinkGen.SimulateServiceResponse
    rw [if_pos hfix]
    unfold IotUplinkGen.getFixedResponse
    rw [hlist]
  · intro hrnd h
    have hnotfix : config.responseStrategy ≠ "fixed" := by
      rcases hrnd with h1 | h1 <;> rw [h1] <;> decide
    unfold IotUplinkGen.SimulateServiceResponse
    rw [if_neg hnotfix, if_pos hrnd]
    unfold IotUplinkGen.getRandomResponse
    cases hlist : config.possibleResponses with
    | nil => exact absurd hlist h
    | cons r rest =>
      have hlt : k % (r :: rest).length < (r :: rest).length :=
        Nat.mod_lt _ (by simp)
      rw [List.getElem?_eq_getElem hlt]
      show _ = some ((r :: rest).getD (k % (r :: rest).length)
        IotUplinkGen.defaultServiceResponse)
      rw [List.getD_eq_getElem?_getD, List.getElem?_eq_getElem hlt]
      rfl
  · intro hdef
    have key : IotUplinkGen.SimulateServiceResponse config k =
        IotUplinkGen.defaultServiceResponse := by
      rcases hdef with hunk | hemp
      · have h1 : config.responseStrategy ≠ "fixed" := by
          intro hc; exact hunk (by rw [hc]; decide)
        have h2 : ¬(config.responseStrategy = "random" ∨
            config.responseStrategy = "randomPick") := by
          rintro (hc | hc) <;> exact hunk (by rw [hc]; decide)
        unfold IotUplinkGen.SimulateServiceResponse
        rw [if_neg h1, if_neg h2]
      · unfold IotUplinkGen.SimulateServiceResponse
        split
        · unfold IotUplinkGen.getFixedResponse
          rw [hemp]
        · split
          · unfold IotUplinkGen.getRandomResponse
            rw [hemp]
          · rfl
    exact ⟨key, by rw [key]; rfl⟩

/-- Witness for C7: a two-candidate config under strategy `fixed`
returns the first candidate; under `randomPick` with draw `k = 3` it
returns the candidate at index `3 mod 2 = 1`; an unknown strategy
returns the code-200 default. -/
theorem C7_service_response_witness :
    IotUplinkGen.SimulateServiceResponse
      { responseStrategy := "fixed",
        possibleResponses := [⟨200, "ok", "done"⟩, ⟨500, "fail", "boom"⟩] } 3 =
      ⟨200, "ok", "done"⟩ ∧
    IotUplinkGen.SimulateServiceResponse
      { responseStrategy := "randomPick",
        possibleResponses := [⟨200, "ok", "done"⟩, ⟨500, "fail", "boom"⟩] } 3 =
      ⟨500, "fail", "boom"⟩ ∧
    (IotUplinkGen.SimulateServiceResponse
      { responseStrategy := "mystery",
        possibleResponses := [⟨200, "ok", "done"⟩, ⟨500, "fail", "boom"⟩] } 3).code =
      200 := by
  refine ⟨?_, ?_, ?_⟩
  · exact (C7_service_response
      { responseStrategy := "fixed",
        possibleResponses := [⟨200, "ok", "done"⟩, ⟨500, "fail", "boom"⟩] } 3).1
      rfl ⟨200, "ok", "done"⟩ [⟨500, "fail", "boom"⟩] rfl
  · have h := (C7_service_response
      { responseStrategy := "randomPick",
        possibleResponses := [⟨200, "ok", "done"⟩, ⟨500, "fail", "boom"⟩] } 3).2.1
      (Or.inr rfl) (by decide)
    have h2 : some ((⟨500, "fail", "boom"⟩ : IotUplinkGen.ServiceResponse)) =
      some (IotUplinkGen.SimulateServiceResponse
        { responseStrategy := "randomPick",
          possibleResponses := [⟨200, "ok", "done"⟩, ⟨500, "fail", "boom"⟩] } 3) := h
    exact (Option.some.inj h2).symm
  · exact ((C7_service_response
      { responseStrategy := "mystery",
        possibleResponses := [⟨200, "ok", "done"⟩, ⟨500, "fail", "boom"⟩] } 3).2.2
      (Or.inl (by decide))).2

/-- C8: `ShouldRestart` holds exactly when the status is `Error` and the
restart count is strictly below the configured maximum; a fresh
`ManagedDevice` is configured with maximum 5; once the count has reached
the maximum, `ShouldRestart` is false, and a further crash leaves the
status at `Error` with the health sweep performing no restart (the
restart counter is untouched). -/
theorem C8_bounded_restart (md : IotUplinkGen.ManagedDeviceState) (now : ℤ) :
    (IotUplinkGen.ShouldRestart md = true ↔
      md.status = IotUplinkGen.DeviceStatus.error ∧
        md.restartCount < md.maxRestartCount) ∧
    IotUplinkGen.NewManagedDevice.maxRestartCount = 5 ∧
    (md.maxRestartCount ≤ md.restartCount →
      IotUplinkGen.ShouldRestart md = false) ∧
    (md.maxRestartCount ≤ md.restartCount →
      IotUplinkGen.healthSweepStep (IotUplinkGen.crashTransition md) now =
        IotUplinkGen.crashTransition md ∧
      (IotUplinkGen.crashTransition md).status =
        IotUplinkGen.DeviceStatus.error ∧
      (IotUplinkGen.crashTransition md).restartCount = md.restartCount) := by
  refine ⟨?_, rfl, ?_, ?_⟩
  · unfold IotUplinkGen.ShouldRestart
    rw [Bool.and_eq_true, decide_eq_true_iff, decide_eq_true_iff]
  · intro hmax
    unfold IotUplinkGen.ShouldRestart
    have : decide (md.restartCount < md.maxRestartCount) = false :=
      decide_eq_false (by omega)
    rw [this, Bool.and_false]
  · intro hmax
    refine ⟨?_, rfl, rfl⟩
    unfold IotUplinkGen.healthSweepStep
    have hsr : IotUplinkGen.ShouldRestart (IotUplinkGen.crashTransition md) =
        false := by
      unfold IotUplinkGen.ShouldRestart IotUplinkGen.crashTransition
      have : decide (md.restartCount < md.maxRestartCount) = false :=
        decide_eq_false (by omega)
      simp only [this, Bool.and_false]
    rw [hsr, Bool.and_false]
    rfl

/-- Witness for C8: a device in `Error` that has already restarted 5
times (the configured maximum of a fresh device) is not restarted — the
sweep leaves it in `Error` with the counter at 5. -/
theorem C8_bounded_restart_witness :
    IotUplinkGen.ShouldRestart
      ⟨IotUplinkGen.DeviceStatus.error, 5, 5, 0⟩ = false ∧
    IotUplinkGen.healthSweepStep
      (IotUplinkGen.crashTransition
        ⟨IotUplinkGen.DeviceStatus.error, 5, 5, 0⟩) 0 =
      IotUplinkGen.crashTransition
        ⟨IotUplinkGen.DeviceStatus.error, 5, 5, 0⟩ ∧
    (IotUplinkGen.crashTransition
      ⟨IotUplinkGen.DeviceStatus.error, 5, 5, 0⟩).status =
      IotUplinkGen.DeviceStatus.error :=
  ⟨(C8_bounded_restart ⟨IotUplinkGen.DeviceStatus.error, 5, 5, 0⟩ 0).2.2.1
      (by norm_num),
    ((C8_bounded_restart ⟨IotUplinkGen.DeviceStatus.error, 5, 5, 0⟩ 0).2.2.2
      (by norm_num)).1,
    ((C8_bounded_restart ⟨IotUplinkGen.DeviceStatus.error, 5, 5, 0⟩ 0).2.2.2
      (by norm_num)).2.1⟩

/-- C9: a property set-call validates the value against the property's
generation config and returns an error exactly when a config exists and
validation fails; in every case the `PropertySimulator` state is
returned unchanged, so any subsequently generated (stateful) value is
the same as if the set-call had never happened. -/
theorem C9_set_property_frame (rule : IotUplinkGen.SimulationRule)
    (states : String → Option ℚ) (identifier : String)
    (value : IotUplinkGen.SimValue) :
    ((IotUplinkGen.setPropertyValue rule states identifier value).2 = states) ∧
    ((IotUplinkGen.setPropertyValue rule states identifier value).1 ≠ none ↔
      ∃ config, rule.simulationConfig.lookup identifier = some config ∧
        IotUplinkGen.ValidatePropertyValue value config ≠ none) ∧
    (∀ id2 config2,
      IotUplinkGen.simulateAccumulate id2 config2
        ((IotUplinkGen.setPropertyValue rule states identifier value).2) =
      IotUplinkGen.simulateAccumulate id2 config2 states) := by
  have hsnd : (IotUplinkGen.setPropertyValue rule states identifier value).2 =
      states := by
    unfold IotUplinkGen.setPropertyValue
    cases hlk : rule.simulationConfig.lookup identifier with
    | none => rfl
    | some config =>
      dsimp only
      cases hval : IotUplinkGen.ValidatePropertyValue value config <;> rfl
  refine ⟨hsnd, ?_, ?_⟩
  · constructor
    · intro hne
      unfold IotUplinkGen.setPropertyValue at hne
      cases hlk : rule.simulationConfig.lookup identifier with
      | none => rw [hlk] at hne; exact absurd rfl hne
      | some config =>
        rw [hlk] at hne
        dsimp only at hne
        cases hval : IotUplinkGen.ValidatePropertyValue value config with
        | none => rw [hval] at hne; exact absurd rfl hne
        | some e => exact ⟨config, rfl, by rw [hval]; simp⟩
    · rintro ⟨config, hc, hv⟩
      unfold IotUplinkGen.setPropertyValue
      rw [hc]
      dsimp only
      cases hval : IotUplinkGen.ValidatePropertyValue value config with
      | none => exact absurd hval hv
      | some e => simp
  · intro id2 config2
    rw [hsnd]

/-- Witness for C9: setting `speed` (configured `randomRange` 500..2500)
to the out-of-range value `"90"` yields a validation error while the
generator state map is returned unchanged. -/
theorem C9_set_property_frame_witness :
    (IotUplinkGen.setPropertyValue
      { simulationConfig := [("speed",
          { method := "randomRange", min := some ⟨500, 0⟩,
            max := some ⟨2500, 0⟩ })] }
      (fun _ => none) "speed" (IotUplinkGen.SimValue.str "90")).2 =
      (fun _ => (none : Option ℚ)) ∧
    (IotUplinkGen.setPropertyValue
      { simulationConfig := [("speed",
          { method := "randomRange", min := some ⟨500, 0⟩,
            max := some ⟨2500, 0⟩ })] }
      (fun _ => none) "speed" (IotUplinkGen.SimValue.str "90")).1 ≠ none := by
  have hpf : IotUplinkGen.parseFloat "90" = some 90 := by
    unfold IotUplinkGen.parseFloat
    rw [show IotUplinkGen.parseFloatLit "90" = some ⟨90, 0⟩ from rfl]
    norm_num [IotUplinkGen.NumLit.toRat]
  have hval : IotUplinkGen.ValidatePropertyValue (IotUplinkGen.SimValue.str "90")
      { method := "randomRange", min := some ⟨500, 0⟩, max := some ⟨2500, 0⟩ } =
      some "value out of range" := by
    unfold IotUplinkGen.ValidatePropertyValue
    rw [if_pos (Or.inl rfl)]
    dsimp only
    rw [hpf]
    dsimp only
    rw [if_pos]
    exact Or.inl (by norm_num [IotUplinkGen.numOr0, IotUplinkGen.NumLit.toRat])
  exact ⟨(C9_set_property_frame
      { simulationConfig := [("speed",
          { method := "randomRange", min := some ⟨500, 0⟩,
            max := some ⟨2500, 0⟩ })] }
      (fun _ => none) "speed" (IotUplinkGen.SimValue.str "90")).1,
    (C9_set_property_frame
      { simulationConfig := [("speed",
          { method := "randomRange", min := some ⟨500, 0⟩,
            max := some ⟨2500, 0⟩ })] }
      (fun _ => none) "speed" (IotUplinkGen.SimValue.str "90")).2.1.mpr
      ⟨_, rfl, by rw [hval]; simp⟩⟩
